import Mathlib

/-!
Verification development for the go-lucky lottery analyzer
(`lottery_analyzer.go`, `cosmic_correlator.go`).

Modelling conventions for the shallow embedding:

* A Go `time.Time` is modelled as a rational number of seconds since the
  Unix epoch (the analyzer only ever uses UTC instants, so this is a
  faithful, lossless representation at the granularity the code uses).
* Go `float64` arithmetic is modelled over exact rationals (`ℚ`) where the
  code only uses field operations, and over an extended type `GFloat`
  (finite real ∣ +Inf ∣ -Inf ∣ NaN) where the IEEE special values are the
  point of the claim (the Pearson-correlation path).  Rounding error and
  overflow of finite doubles are idealised away; special-value propagation
  (division by zero, Inf/Inf, NaN poisoning) follows the IEEE rules that
  Go's `math` package implements.
* Go's `math.Mod(x, y)` is truncated remainder: `x - y * trunc(x / y)`,
  whose result carries the sign of `x`.  Go's integer `%` likewise
  truncates toward zero.
-/

namespace GoLucky

/-- Truncation toward zero of a rational, as in Go's float-to-int
conversion and `math.Trunc`. -/
def ratTrunc (q : ℚ) : ℤ :=
  if 0 ≤ q then ⌊q⌋ else ⌈q⌉

/-- Go's `math.Mod x y`: truncated floating-point remainder,
`x - y * trunc(x/y)`; the result has the sign of `x`. -/
def goMod (x y : ℚ) : ℚ :=
  x - y * (ratTrunc (x / y) : ℚ)

/-- Go's integer remainder `a % b` (truncated division, sign of the
dividend). -/
def goIntMod (a b : ℤ) : ℤ :=
  a - b * (Int.tdiv a b)

/-! ### Astronomical calculator (`cosmic_correlator.go`)

`calculateMoonPhase` and `calculatePlanetaryPositions` are pure functions
of the date.  `t` is seconds since the Unix epoch. -/

/-- Unix timestamp of the reference new moon 2000-01-06T18:14:00Z used by
`calculateMoonPhase`. -/
def refNewMoonUnix : ℚ := 947182440

/-- Synodic month length in days used by `calculateMoonPhase`. -/
def synodicMonth : ℚ := 2953059 / 100000

/-- Lunar `cycles` value computed by `calculateMoonPhase`:
days since the reference new moon divided by the synodic month. -/
def moonCycles (t : ℚ) : ℚ :=
  ((t - refNewMoonUnix) / 86400) / synodicMonth

/-- The `phase` result of `calculateMoonPhase`:
`cycles - math.Floor(cycles)` (true floor, as in Go). -/
def calculateMoonPhasePhase (t : ℚ) : ℚ :=
  moonCycles t - (⌊moonCycles t⌋ : ℚ)

/-- The `illumination` result of `calculateMoonPhase`:
`0.5 * (1 - cos(2π·phase))`. -/
noncomputable def calculateMoonPhaseIllum (t : ℚ) : ℝ :=
  (1 / 2) * (1 - Real.cos (2 * Real.pi * (calculateMoonPhasePhase t : ℝ)))

/-- `getMoonPhaseName`: the fixed 8-way bucketing of the phase fraction. -/
def getMoonPhaseName (phase : ℚ) : String :=
  if phase < 625 / 10000 then "New Moon"
  else if phase < 1875 / 10000 then "Waxing Crescent"
  else if phase < 3125 / 10000 then "First Quarter"
  else if phase < 4375 / 10000 then "Waxing Gibbous"
  else if phase < 5625 / 10000 then "Full Moon"
  else if phase < 6875 / 10000 then "Waning Gibbous"
  else if phase < 8125 / 10000 then "Last Quarter"
  else if phase < 9375 / 10000 then "Waning Crescent"
  else "New Moon"

/-- Unix timestamp of the J2000 epoch 2000-01-01T12:00:00Z. -/
def j2000Unix : ℚ := 946728000

/-- `daysSinceJ2000` as computed by `calculatePlanetaryPositions`:
`date.Sub(J2000).Hours() / 24`. -/
def daysSinceJ2000 (t : ℚ) : ℚ :=
  (t - j2000Unix) / 86400

/-- Result of `calculatePlanetaryPositions`: one angle per planet
(the Go map with the five fixed keys, as a structure). -/
structure PlanetaryPositions where
  mercury : ℚ
  venus : ℚ
  mars : ℚ
  jupiter : ℚ
  saturn : ℚ
  deriving DecidableEq, Repr

/-- The per-planet angle: `math.Mod(daysSinceJ2000 * 360 / period, 360)`. -/
def planetAngle (t period : ℚ) : ℚ :=
  goMod (daysSinceJ2000 t * 360 / period) 360

/-- `calculatePlanetaryPositions`, with the orbital periods
87.97 / 224.70 / 686.98 / 4332.59 / 10759.22 days. -/
def calculatePlanetaryPositions (t : ℚ) : PlanetaryPositions where
  mercury := planetAngle t (8797 / 100)
  venus := planetAngle t (22470 / 100)
  mars := planetAngle t (68698 / 100)
  jupiter := planetAngle t (433259 / 100)
  saturn := planetAngle t (1075922 / 100)

/-! Basic facts about the truncated remainder. -/

theorem ratTrunc_nonneg_eq_floor {q : ℚ} (h : 0 ≤ q) : ratTrunc q = ⌊q⌋ := by
  simp [ratTrunc, h]

theorem goMod_nonneg_mem {x y : ℚ} (hx : 0 ≤ x) (hy : 0 < y) :
    0 ≤ goMod x y ∧ goMod x y < y := by
  have hxy : 0 ≤ x / y := div_nonneg hx hy.le
  rw [goMod, ratTrunc_nonneg_eq_floor hxy]
  constructor
  · have h1 : (⌊x / y⌋ : ℚ) ≤ x / y := Int.floor_le _
    have h2 : y * (⌊x / y⌋ : ℚ) ≤ y * (x / y) :=
      mul_le_mul_of_nonneg_left h1 hy.le
    have h3 : y * (x / y) = x := by field_simp
    linarith
  · have h1 : x / y < (⌊x / y⌋ : ℚ) + 1 := Int.lt_floor_add_one _
    have h2 : y * (x / y) < y * ((⌊x / y⌋ : ℚ) + 1) :=
      (mul_lt_mul_left hy).mpr h1
    have h3 : y * (x / y) = x := by field_simp
    nlinarith

theorem goMod_abs_lt {x y : ℚ} (hy : 0 < y) :
    -y < goMod x y ∧ goMod x y < y := by
  rcases le_or_lt 0 x with hx | hx
  · have h := goMod_nonneg_mem hx hy
    exact ⟨lt_of_lt_of_le (neg_neg_iff_pos.mpr hy) h.1, h.2⟩
  · have hxy : x / y < 0 := div_neg_of_neg_of_pos hx hy
    have hxy' : ¬ (0 ≤ x / y) := not_le.mpr hxy
    rw [goMod, ratTrunc, if_neg hxy']
    constructor
    · have h1 : ((⌈x / y⌉ : ℤ) : ℚ) < x / y + 1 := Int.ceil_lt_add_one _
      have h2 : y * ((⌈x / y⌉ : ℤ) : ℚ) < y * (x / y + 1) :=
        (mul_lt_mul_left hy).mpr h1
      have h3 : y * (x / y) = x := by field_simp
      nlinarith
    · have h1 : (x / y : ℚ) ≤ (⌈x / y⌉ : ℚ) := Int.le_ceil _
      have h2 : y * (x / y) ≤ y * (⌈x / y⌉ : ℚ) :=
        mul_le_mul_of_nonneg_left h1 hy.le
      have h3 : y * (x / y) = x := by field_simp
      nlinarith

theorem planetAngle_mem_Ico {t period : ℚ} (hp : 0 < period)
    (ht : 0 ≤ daysSinceJ2000 t) :
    0 ≤ planetAngle t period ∧ planetAngle t period < 360 := by
  have hx : 0 ≤ daysSinceJ2000 t * 360 / period :=
    div_nonneg (by linarith) hp.le
  exact goMod_nonneg_mem hx (by norm_num)

theorem planetAngle_bounds (t period : ℚ) :
    -360 < planetAngle t period ∧ planetAngle t period < 360 :=
  @goMod_abs_lt (daysSinceJ2000 t * 360 / period) 360 (by norm_num)

/-- **C1** (amended).  `calculatePlanetaryPositions` computes each angle as
Go's truncated `math.Mod(daysSinceJ2000 * 360 / period, 360)`, whose result
carries the sign of the dividend: every angle lies in `(-360, 360)`, and
for dates at or after the J2000 epoch (`daysSinceJ2000 ≥ 0`) every angle
lies in `[0, 360)`.  The original claim's `[0, 360)` range fails for dates
strictly before the epoch. -/
theorem calculatePlanetaryPositions_range (t : ℚ) :
    (-360 < (calculatePlanetaryPositions t).mercury ∧
        (calculatePlanetaryPositions t).mercury < 360 ∧
      -360 < (calculatePlanetaryPositions t).venus ∧
        (calculatePlanetaryPositions t).venus < 360 ∧
      -360 < (calculatePlanetaryPositions t).mars ∧
        (calculatePlanetaryPositions t).mars < 360 ∧
      -360 < (calculatePlanetaryPositions t).jupiter ∧
        (calculatePlanetaryPositions t).jupiter < 360 ∧
      -360 < (calculatePlanetaryPositions t).saturn ∧
        (calculatePlanetaryPositions t).saturn < 360) ∧
    (0 ≤ daysSinceJ2000 t →
      0 ≤ (calculatePlanetaryPositions t).mercury ∧
        (calculatePlanetaryPositions t).mercury < 360 ∧
      0 ≤ (calculatePlanetaryPositions t).venus ∧
        (calculatePlanetaryPositions t).venus < 360 ∧
      0 ≤ (calculatePlanetaryPositions t).mars ∧
        (calculatePlanetaryPositions t).mars < 360 ∧
      0 ≤ (calculatePlanetaryPositions t).jupiter ∧
        (calculatePlanetaryPositions t).jupiter < 360 ∧
      0 ≤ (calculatePlanetaryPositions t).saturn ∧
        (calculatePlanetaryPositions t).saturn < 360) := by
  constructor
  · refine ⟨(planetAngle_bounds t _).1, (planetAngle_bounds t _).2,
      (planetAngle_bounds t _).1, (planetAngle_bounds t _).2,
      (planetAngle_bounds t _).1, (planetAngle_bounds t _).2,
      (planetAngle_bounds t _).1, (planetAngle_bounds t _).2,
      (planetAngle_bounds t _).1, (planetAngle_bounds t _).2⟩
  · intro ht
    refine ⟨(planetAngle_mem_Ico (by norm_num) ht).1,
      (planetAngle_mem_Ico (by norm_num) ht).2,
      (planetAngle_mem_Ico (by norm_num) ht).1,
      (planetAngle_mem_Ico (by norm_num) ht).2,
      (planetAngle_mem_Ico (by norm_num) ht).1,
      (planetAngle_mem_Ico (by norm_num) ht).2,
      (planetAngle_mem_Ico (by norm_num) ht).1,
      (planetAngle_mem_Ico (by norm_num) ht).2,
      (planetAngle_mem_Ico (by norm_num) ht).1,
      (planetAngle_mem_Ico (by norm_num) ht).2⟩

/-- **C1** (witness).  The amended theorem applied one day after the J2000
epoch: all five angles lie in `[0, 360)` there. -/
theorem calculatePlanetaryPositions_range_witness :
    0 ≤ daysSinceJ2000 946814400 ∧
      (0 ≤ (calculatePlanetaryPositions 946814400).mercury ∧
        (calculatePlanetaryPositions 946814400).mercury < 360 ∧
      0 ≤ (calculatePlanetaryPositions 946814400).venus ∧
        (calculatePlanetaryPositions 946814400).venus < 360 ∧
      0 ≤ (calculatePlanetaryPositions 946814400).mars ∧
        (calculatePlanetaryPositions 946814400).mars < 360 ∧
      0 ≤ (calculatePlanetaryPositions 946814400).jupiter ∧
        (calculatePlanetaryPositions 946814400).jupiter < 360 ∧
      0 ≤ (calculatePlanetaryPositions 946814400).saturn ∧
        (calculatePlanetaryPositions 946814400).saturn < 360) :=
  ⟨by norm_num [daysSinceJ2000, j2000Unix],
    (calculatePlanetaryPositions_range 946814400).2
      (by norm_num [daysSinceJ2000, j2000Unix])⟩

/-- **C1** (counterexample).  At 1999-12-31T12:00:00Z (one day before the
J2000 epoch, Unix time 946641600) the Mercury angle computed by
`calculatePlanetaryPositions` is negative, so it does not lie in
`[0, 360)` for every calendar date. -/
theorem calculatePlanetaryPositions_before_epoch_neg :
    ¬ (0 ≤ (calculatePlanetaryPositions 946641600).mercury) := by
  have hceil : ⌈(-(100 / 8797) : ℚ)⌉ = 0 := by
    rw [Int.ceil_eq_zero_iff]
    constructor <;> norm_num
  norm_num [calculatePlanetaryPositions, planetAngle, goMod, ratTrunc,
    daysSinceJ2000, j2000Unix, hceil]

/-! ### An extended-float carrier for the Pearson-correlation path

`float64` values are modelled as exact reals extended with the IEEE
special values `+Inf`, `-Inf` and `NaN`; the arithmetic below implements
the special-value propagation rules of Go's `float64` operations
(division by zero, `Inf/Inf`, `NaN` poisoning, `Sqrt` of a negative).
Rounding and overflow of finite values are idealised away. -/
inductive GFloat where
  | fin (x : ℝ)
  | pinf
  | ninf
  | nan
  deriving Inhabited

namespace GFloat

/-- A `GFloat` that is an ordinary (finite) number. -/
def IsFinite : GFloat → Prop
  | fin _ => True
  | _ => False

noncomputable def add : GFloat → GFloat → GFloat
  | nan, _ => nan
  | _, nan => nan
  | fin x, fin y => fin (x + y)
  | fin _, pinf => pinf
  | fin _, ninf => ninf
  | pinf, fin _ => pinf
  | ninf, fin _ => ninf
  | pinf, pinf => pinf
  | ninf, ninf => ninf
  | pinf, ninf => nan
  | ninf, pinf => nan

noncomputable def sub : GFloat → GFloat → GFloat
  | nan, _ => nan
  | _, nan => nan
  | fin x, fin y => fin (x - y)
  | fin _, pinf => ninf
  | fin _, ninf => pinf
  | pinf, fin _ => pinf
  | ninf, fin _ => ninf
  | pinf, ninf => pinf
  | ninf, pinf => ninf
  | pinf, pinf => nan
  | ninf, ninf => nan

noncomputable def mul : GFloat → GFloat → GFloat
  | nan, _ => nan
  | _, nan => nan
  | fin x, fin y => fin (x * y)
  | fin x, pinf => if 0 < x then pinf else if x < 0 then ninf else nan
  | fin x, ninf => if 0 < x then ninf else if x < 0 then pinf else nan
  | pinf, fin y => if 0 < y then pinf else if y < 0 then ninf else nan
  | ninf, fin y => if 0 < y then ninf else if y < 0 then pinf else nan
  | pinf, pinf => pinf
  | pinf, ninf => ninf
  | ninf, pinf => ninf
  | ninf, ninf => pinf

/-- IEEE division without signed zeros: a finite nonzero value divided by
zero gives a signed infinity, `0/0` and `Inf/Inf` give `NaN`. -/
noncomputable def div : GFloat → GFloat → GFloat
  | nan, _ => nan
  | _, nan => nan
  | fin x, fin y =>
      if y = 0 then (if 0 < x then pinf else if x < 0 then ninf else nan)
      else fin (x / y)
  | fin _, pinf => fin 0
  | fin _, ninf => fin 0
  | pinf, fin y => if 0 ≤ y then pinf else ninf
  | ninf, fin y => if 0 ≤ y then ninf else pinf
  | pinf, pinf => nan
  | pinf, ninf => nan
  | ninf, pinf => nan
  | ninf, ninf => nan

/-- `math.Sqrt`: `NaN` below zero, `+Inf` at `+Inf`. -/
noncomputable def sqrt : GFloat → GFloat
  | nan => nan
  | ninf => nan
  | pinf => pinf
  | fin x => if x < 0 then nan else fin (Real.sqrt x)

/-- `math.Abs`. -/
noncomputable def abs : GFloat → GFloat
  | nan => nan
  | ninf => pinf
  | pinf => pinf
  | fin x => fin |x|

/-- Go's `<` on floats: `false` whenever either side is `NaN`. -/
noncomputable def blt : GFloat → GFloat → Bool
  | fin x, fin y => decide (x < y)
  | fin _, pinf => true
  | ninf, fin _ => true
  | ninf, pinf => true
  | _, _ => false

end GFloat

open GFloat in
/-- The `sumX` / `sumY` accumulation loop of `calculatePearsonCorrelation`. -/
noncomputable def pearsonSum (l : List GFloat) : GFloat :=
  l.foldl add (fin 0)

open GFloat in
/-- The `num` accumulation loop of `calculatePearsonCorrelation` over the
paired series. -/
noncomputable def pearsonNum (xy : List (GFloat × GFloat))
    (meanX meanY : GFloat) : GFloat :=
  xy.foldl (fun acc p => add acc (mul (sub p.1 meanX) (sub p.2 meanY)))
    (fin 0)

open GFloat in
/-- The `denomX` / `denomY` accumulation loop of
`calculatePearsonCorrelation`. -/
noncomputable def pearsonDenom (l : List GFloat) (mean : GFloat) : GFloat :=
  l.foldl (fun acc xi => add acc (mul (sub xi mean) (sub xi mean))) (fin 0)

open Classical GFloat in
/-- `calculatePearsonCorrelation` from `cosmic_correlator.go`: returns the
sentinel `(0, 1)` for mismatched lengths, empty input, or a zero variance
sum; otherwise the textbook correlation coefficient followed by the
simplified p-value `1 - |t|/(|t|+10)` with
`t = r·sqrt((n-2)/(1-r²))`.  The single accumulator loop of the source is
split into one fold per accumulator; each accumulator receives the same
additions in the same order. -/
noncomputable def calculatePearsonCorrelation (x y : List GFloat) :
    GFloat × GFloat :=
  if x.length ≠ y.length ∨ x.length = 0 then (fin 0, fin 1) else
  let n : GFloat := fin (x.length : ℝ)
  let meanX := div (pearsonSum x) n
  let meanY := div (pearsonSum y) n
  let num := pearsonNum (x.zip y) meanX meanY
  let denomX := pearsonDenom x meanX
  let denomY := pearsonDenom y meanY
  if denomX = fin 0 ∨ denomY = fin 0 then (fin 0, fin 1) else
  let correlation := div num (sqrt (mul denomX denomY))
  let t := mul correlation
    (sqrt (div (sub n (fin 2)) (sub (fin 1) (mul correlation correlation))))
  let pValue := sub (fin 1) (div (abs t) (add (abs t) (fin 10)))
  (correlation, pValue)

open GFloat in
/-- `getSignificanceLevel` from `cosmic_correlator.go`.  Note that a `NaN`
p-value fails every `<` test and is labelled `"None"`. -/
noncomputable def getSignificanceLevel (pValue : GFloat) : String :=
  if blt pValue (fin (1 / 100)) then "High"
  else if blt pValue (fin (5 / 100)) then "Moderate"
  else if blt pValue (fin (1 / 10)) then "Low"
  else "None"

namespace GFloat

@[simp] theorem add_fin (a b : ℝ) : add (fin a) (fin b) = fin (a + b) := rfl

@[simp] theorem sub_fin (a b : ℝ) : sub (fin a) (fin b) = fin (a - b) := rfl

@[simp] theorem mul_fin (a b : ℝ) : mul (fin a) (fin b) = fin (a * b) := rfl

theorem div_fin {b : ℝ} (a : ℝ) (hb : b ≠ 0) :
    div (fin a) (fin b) = fin (a / b) := by
  simp [div, hb]

theorem sqrt_fin {a : ℝ} (ha : 0 ≤ a) : sqrt (fin a) = fin (Real.sqrt a) := by
  simp [sqrt, not_lt.mpr ha]

@[simp] theorem abs_fin (a : ℝ) : abs (fin a) = fin |a| := rfl

@[simp] theorem isFinite_fin (a : ℝ) : IsFinite (fin a) := trivial

/-- Folding a `GFloat` operation that agrees with a real operation on
finite values over a list of finite values stays finite. -/
theorem foldl_fin (F : GFloat → GFloat → GFloat) (g : ℝ → ℝ → ℝ)
    (hF : ∀ a b, F (fin a) (fin b) = fin (g a b)) :
    ∀ (l : List ℝ) (a : ℝ),
      (l.map fin).foldl F (fin a) = fin (l.foldl g a)
  | [], _ => rfl
  | b :: l, a => by
      simp only [List.map_cons, List.foldl_cons, hF]
      exact foldl_fin F g hF l (g a b)

/-- Pair version of `foldl_fin`, for the fold over the zipped series. -/
theorem foldl_fin_pair (F : GFloat → GFloat × GFloat → GFloat)
    (g : ℝ → ℝ × ℝ → ℝ)
    (hF : ∀ a p, F (fin a) (Prod.map fin fin p) = fin (g a p)) :
    ∀ (l : List (ℝ × ℝ)) (a : ℝ),
      (l.map (Prod.map fin fin)).foldl F (fin a) = fin (l.foldl g a)
  | [], _ => rfl
  | p :: l, a => by
      simp only [List.map_cons, List.foldl_cons, hF]
      exact foldl_fin_pair F g hF l (g a p)

end GFloat

/-! Real-valued descriptions of the accumulators of
`calculatePearsonCorrelation` on finite inputs. -/

/-- The `sumX` accumulator on a finite series. -/
noncomputable def rSum (l : List ℝ) : ℝ := l.foldl (· + ·) 0

/-- The `meanX` value on a finite series. -/
noncomputable def rMean (l : List ℝ) : ℝ := rSum l / l.length

/-- The `denomX` accumulator (sum of squared deviations) on a finite
series. -/
noncomputable def rVar (l : List ℝ) : ℝ :=
  l.foldl (fun a xi => a + (xi - rMean l) * (xi - rMean l)) 0

/-- The `num` accumulator (sum of products of deviations). -/
noncomputable def rNum (x y : List ℝ) : ℝ :=
  (x.zip y).foldl (fun a p => a + (p.1 - rMean x) * (p.2 - rMean y)) 0

/-- The correlation coefficient on a finite, non-degenerate input. -/
noncomputable def rCorr (x y : List ℝ) : ℝ :=
  rNum x y / Real.sqrt (rVar x * rVar y)

/-- The p-value expression of `calculatePearsonCorrelation` as a function
of the sample size and the (finite) correlation coefficient. -/
noncomputable def pvalueGF (n : ℕ) (r : ℝ) : GFloat :=
  let t := GFloat.mul (.fin r)
    (GFloat.sqrt (GFloat.div (.fin ((n : ℝ) - 2)) (.fin (1 - r * r))))
  GFloat.sub (.fin 1)
    (GFloat.div (GFloat.abs t) (GFloat.add (GFloat.abs t) (.fin 10)))

theorem foldl_add_eq_sum {α : Type} (f : α → ℝ) :
    ∀ (l : List α) (a : ℝ),
      l.foldl (fun acc z => acc + f z) a = a + (l.map f).sum
  | [], a => by simp
  | b :: l, a => by
      simp only [List.foldl_cons, List.map_cons, List.sum_cons]
      rw [foldl_add_eq_sum f l (a + f b)]
      ring

theorem rVar_eq_sum (l : List ℝ) :
    rVar l = (l.map fun xi => (xi - rMean l) * (xi - rMean l)).sum := by
  rw [rVar, foldl_add_eq_sum]; ring

theorem rVar_nonneg (l : List ℝ) : 0 ≤ rVar l := by
  rw [rVar_eq_sum]
  apply List.sum_nonneg
  intro a ha
  simp only [List.mem_map] at ha
  obtain ⟨xi, _, rfl⟩ := ha
  exact mul_self_nonneg _

/-- Cauchy–Schwarz for lists of pairs, by induction. -/
theorem list_cauchy_schwarz :
    ∀ l : List (ℝ × ℝ),
      ((l.map fun p => p.1 * p.2).sum) ^ 2 ≤
        ((l.map fun p => p.1 * p.1).sum) * ((l.map fun p => p.2 * p.2).sum)
  | [] => by simp
  | p :: l => by
      have ih := list_cauchy_schwarz l
      have hA : 0 ≤ (l.map fun p => p.1 * p.1).sum :=
        List.sum_nonneg (by
          intro a ha
          simp only [List.mem_map] at ha
          obtain ⟨q, _, rfl⟩ := ha
          exact mul_self_nonneg _)
      have hB : 0 ≤ (l.map fun p => p.2 * p.2).sum :=
        List.sum_nonneg (by
          intro a ha
          simp only [List.mem_map] at ha
          obtain ⟨q, _, rfl⟩ := ha
          exact mul_self_nonneg _)
      simp only [List.map_cons, List.sum_cons]
      set a := p.1
      set b := p.2
      set S := (l.map fun p => p.1 * p.2).sum
      set A := (l.map fun p => p.1 * p.1).sum
      set B := (l.map fun p => p.2 * p.2).sum
      rcases eq_or_lt_of_le hB with hB0 | hBpos
      · have hS : S = 0 := by nlinarith [sq_nonneg S]
        rw [hS, ← hB0]
        nlinarith [mul_nonneg hA (mul_self_nonneg b)]
      · nlinarith [sq_nonneg (a * B - b * S),
          mul_nonneg (add_nonneg (mul_self_nonneg b) hB)
            (sub_nonneg.mpr ih)]

/-- On equal-length, non-empty series of finite values,
`calculatePearsonCorrelation` computes the real-valued accumulator sums
exactly, returning the `(0, 1)` sentinel precisely when a variance sum is
zero. -/
theorem pearson_map_fin (x y : List ℝ) (hlen : x.length = y.length)
    (hx : x ≠ []) :
    calculatePearsonCorrelation (x.map .fin) (y.map .fin) =
      if rVar x = 0 ∨ rVar y = 0 then (.fin 0, .fin 1)
      else (.fin (rCorr x y), pvalueGF x.length (rCorr x y)) := by
  have hy : y ≠ [] := by
    intro hy0
    exact hx (List.length_eq_zero.mp (by rw [hlen, hy0, List.length_nil]))
  have hn : (x.length : ℝ) ≠ 0 :=
    Nat.cast_ne_zero.mpr (fun h => hx (List.length_eq_zero.mp h))
  have hsum : ∀ l : List ℝ, pearsonSum (l.map GFloat.fin) = GFloat.fin (rSum l) :=
    fun l => GFloat.foldl_fin _ (· + ·) (fun _ _ => rfl) l 0
  have hmX : rSum x / ((x.length : ℕ) : ℝ) = rMean x := rfl
  have hmY : rSum y / ((x.length : ℕ) : ℝ) = rMean y := by
    rw [hlen]; rfl
  have hnum : pearsonNum ((x.zip y).map (Prod.map GFloat.fin GFloat.fin))
      (GFloat.fin (rMean x)) (GFloat.fin (rMean y)) =
      GFloat.fin (rNum x y) :=
    GFloat.foldl_fin_pair _
      (fun a p => a + (p.1 - rMean x) * (p.2 - rMean y))
      (fun _ _ => rfl) (x.zip y) 0
  have hdX : pearsonDenom (x.map GFloat.fin) (GFloat.fin (rMean x)) =
      GFloat.fin (rVar x) :=
    GFloat.foldl_fin _
      (fun a xi => a + (xi - rMean x) * (xi - rMean x))
      (fun _ _ => rfl) x 0
  have hdY : pearsonDenom (y.map GFloat.fin) (GFloat.fin (rMean y)) =
      GFloat.fin (rVar y) :=
    GFloat.foldl_fin _
      (fun a yi => a + (yi - rMean y) * (yi - rMean y))
      (fun _ _ => rfl) y 0
  unfold calculatePearsonCorrelation
  rw [if_neg (by simp [hlen, List.length_eq_zero, hx, hy])]
  simp only [List.length_map]
  split_ifs with hc1 hd1 hc2
  · rfl
  · simp only [List.length_map, hsum, GFloat.div_fin _ hn, hmX, hmY,
      hdX, hdY, GFloat.fin.injEq] at hc1
    exact absurd hc1 hd1
  · simp only [List.length_map, hsum, GFloat.div_fin _ hn, hmX, hmY,
      hdX, hdY, GFloat.fin.injEq] at hc1
    exact absurd hc2 hc1
  · simp only [List.length_map, List.zip_map, hsum,
      GFloat.div_fin _ hn, hmX, hmY, hnum, hdX, hdY]
    push_neg at hc2
    have hdx0 : 0 < rVar x := lt_of_le_of_ne (rVar_nonneg x) (Ne.symm hc2.1)
    have hdy0 : 0 < rVar y := lt_of_le_of_ne (rVar_nonneg y) (Ne.symm hc2.2)
    have hprod : 0 < rVar x * rVar y := mul_pos hdx0 hdy0
    rw [GFloat.mul_fin, GFloat.sqrt_fin (le_of_lt hprod),
      GFloat.div_fin (rNum x y) (Real.sqrt_ne_zero'.mpr hprod)]
    rfl

namespace GFloat

@[simp] theorem sqrt_pinf : sqrt pinf = pinf := rfl

@[simp] theorem sqrt_nan : sqrt nan = nan := rfl

@[simp] theorem abs_pinf : abs pinf = pinf := rfl

@[simp] theorem abs_nan : abs nan = nan := rfl

@[simp] theorem add_pinf_fin (b : ℝ) : add pinf (fin b) = pinf := rfl

@[simp] theorem div_pinf_pinf : div pinf pinf = nan := rfl

@[simp] theorem sub_fin_nan (a : ℝ) : sub (fin a) nan = nan := rfl

@[simp] theorem mul_fin_nan (a : ℝ) : mul (fin a) nan = nan := rfl

@[simp] theorem abs_ninf : abs ninf = pinf := rfl

theorem div_fin_zero_pos {a : ℝ} (ha : 0 < a) :
    div (fin a) (fin 0) = pinf := by
  simp [div, ha]

theorem div_fin_zero_neg {a : ℝ} (ha : a < 0) :
    div (fin a) (fin 0) = ninf := by
  simp [div, ha, not_lt_of_lt ha]

@[simp] theorem div_fin_zero_zero : div (fin 0) (fin 0) = nan := by
  simp [div]

@[simp] theorem sqrt_ninf : sqrt ninf = nan := rfl

theorem sqrt_fin_neg {a : ℝ} (ha : a < 0) : sqrt (fin a) = nan := by
  simp [sqrt, ha]

theorem mul_fin_pinf_pos {a : ℝ} (ha : 0 < a) : mul (fin a) pinf = pinf := by
  simp [mul, ha]

theorem mul_fin_pinf_neg {a : ℝ} (ha : a < 0) : mul (fin a) pinf = ninf := by
  simp [mul, ha, not_lt_of_lt ha]

@[simp] theorem isFinite_nan : ¬ IsFinite nan := fun h => h

@[simp] theorem add_nan (b : GFloat) : add nan b = nan := by cases b <;> rfl

@[simp] theorem div_nan (b : GFloat) : div nan b = nan := by cases b <;> rfl

end GFloat

/-- The p-value expression is `NaN` whenever the finite correlation
coefficient is exactly `±1`: `1 - r²` is zero, the division produces
`±Inf` (or `0/0 = NaN`), and the `Inf/Inf` in the final quotient yields
`NaN`. -/
theorem pvalueGF_nan (n : ℕ) (r : ℝ) (hr : r = 1 ∨ r = -1) :
    pvalueGF n r = GFloat.nan := by
  have h0 : (1 : ℝ) - r * r = 0 := by
    rcases hr with hr | hr <;> rw [hr] <;> norm_num
  rcases lt_trichotomy ((n : ℝ) - 2) 0 with hn | hn | hn
  · -- (n-2)/0 = -Inf, sqrt = NaN, everything downstream NaN
    simp only [pvalueGF]
    rw [h0, GFloat.div_fin_zero_neg hn]
    simp
  · -- 0/0 = NaN
    simp only [pvalueGF]
    rw [h0, hn, GFloat.div_fin_zero_zero]
    simp
  · -- (n-2)/0 = +Inf; t = ±Inf; |t|/(|t|+10) = Inf/Inf = NaN
    simp only [pvalueGF]
    rw [h0, GFloat.div_fin_zero_pos hn, GFloat.sqrt_pinf]
    rcases hr with hr | hr <;> rw [hr]
    · rw [GFloat.mul_fin_pinf_pos (by norm_num)]
      simp
    · rw [GFloat.mul_fin_pinf_neg (by norm_num)]
      simp

/-- The p-value expression is an ordinary finite number whenever the
finite correlation coefficient satisfies `r² < 1` and the sample size is
at least 2. -/
theorem pvalueGF_isFinite (n : ℕ) (r : ℝ) (hn : 2 ≤ n) (hr : r * r < 1) :
    (pvalueGF n r).IsFinite := by
  have h1 : (1 : ℝ) - r * r ≠ 0 := by nlinarith
  have hq : 0 ≤ ((n : ℝ) - 2) / (1 - r * r) := by
    apply div_nonneg
    · have : (2 : ℝ) ≤ (n : ℝ) := by exact_mod_cast hn
      linarith
    · nlinarith
  simp only [pvalueGF]
  rw [GFloat.div_fin _ h1, GFloat.sqrt_fin hq, GFloat.mul_fin,
    GFloat.abs_fin, GFloat.add_fin,
    GFloat.div_fin _
      (by positivity :
        |r * Real.sqrt (((n : ℝ) - 2) / (1 - r * r))| + 10 ≠ 0),
    GFloat.sub_fin]
  exact GFloat.isFinite_fin _

theorem rVar_singleton (a : ℝ) : rVar [a] = 0 := by
  norm_num [rVar, rMean, rSum, List.foldl_cons, List.foldl_nil]

theorem rNum_eq_sum (x y : List ℝ) :
    rNum x y = ((x.zip y).map
      (fun p => (p.1 - rMean x) * (p.2 - rMean y))).sum := by
  rw [rNum, foldl_add_eq_sum]; ring

/-- Cauchy–Schwarz applied to the centered series: the `num` accumulator
squared is bounded by the product of the variance accumulators. -/
theorem map_fst_zip_comp {α β γ : Type} (f : α → γ) (x : List α)
    (y : List β) (h : x.length ≤ y.length) :
    (x.zip y).map (fun p => f p.1) = x.map f := by
  rw [show (fun p : α × β => f p.1) = f ∘ Prod.fst from rfl,
    ← List.map_map, List.map_fst_zip x y h]

theorem map_snd_zip_comp {α β γ : Type} (f : β → γ) (x : List α)
    (y : List β) (h : y.length ≤ x.length) :
    (x.zip y).map (fun p => f p.2) = y.map f := by
  rw [show (fun p : α × β => f p.2) = f ∘ Prod.snd from rfl,
    ← List.map_map, List.map_snd_zip x y h]

theorem rNum_sq_le (x y : List ℝ) (hlen : x.length = y.length) :
    rNum x y * rNum x y ≤ rVar x * rVar y := by
  have hcs := list_cauchy_schwarz
    ((x.zip y).map (fun p => (p.1 - rMean x, p.2 - rMean y)))
  simp only [List.map_map, Function.comp_def] at hcs
  rw [map_fst_zip_comp (fun xi => (xi - rMean x) * (xi - rMean x)) x y
      (le_of_eq hlen),
    map_snd_zip_comp (fun yi => (yi - rMean y) * (yi - rMean y)) x y
      (ge_of_eq hlen)] at hcs
  rw [rNum_eq_sum, rVar_eq_sum, rVar_eq_sum]
  nlinarith [hcs]

/-- The computed correlation coefficient always satisfies `r² ≤ 1`. -/
theorem rCorr_sq_le_one (x y : List ℝ) (hlen : x.length = y.length) :
    rCorr x y * rCorr x y ≤ 1 := by
  rcases eq_or_lt_of_le (mul_nonneg (rVar_nonneg x) (rVar_nonneg y))
    with h | h
  · rw [rCorr, ← h, Real.sqrt_zero, div_zero]
    norm_num
  · have hml := rNum_sq_le x y hlen
    rw [rCorr, div_mul_div_comm, div_le_one (by positivity),
      Real.mul_self_sqrt (le_of_lt h)]
    exact hml

theorem length_ge_two_of_rVar_ne_zero {x : List ℝ} (hx : x ≠ [])
    (hdx : rVar x ≠ 0) : 2 ≤ x.length := by
  rcases x with _ | ⟨a, _ | ⟨b, l⟩⟩
  · exact absurd rfl hx
  · exact absurd (rVar_singleton a) hdx
  · simp only [List.length_cons]
    omega

/-- **C2** (amended).  For equal-length non-empty finite series with both
variance sums non-zero, the computed correlation satisfies `r² ≤ 1`; the
returned `pValue` is finite whenever `r` is not exactly `±1`, and is `NaN`
when `r` is exactly `±1` — which is precisely the exactly-linearly-related
case the original claim asserted to be finite. -/
theorem calculatePearsonCorrelation_pValue_finiteness (x y : List ℝ)
    (hlen : x.length = y.length) (hx : x ≠ [])
    (hdx : rVar x ≠ 0) (hdy : rVar y ≠ 0) :
    rCorr x y * rCorr x y ≤ 1 ∧
    (rCorr x y ≠ 1 ∧ rCorr x y ≠ -1 →
      ((calculatePearsonCorrelation (x.map .fin) (y.map .fin)).2).IsFinite) ∧
    (rCorr x y = 1 ∨ rCorr x y = -1 →
      (calculatePearsonCorrelation (x.map .fin) (y.map .fin)).2 =
        GFloat.nan) := by
  have hbridge := pearson_map_fin x y hlen hx
  rw [if_neg (by push_neg; exact ⟨hdx, hdy⟩)] at hbridge
  refine ⟨rCorr_sq_le_one x y hlen, ?_, ?_⟩
  · intro h
    rw [hbridge]
    apply pvalueGF_isFinite _ _ (length_ge_two_of_rVar_ne_zero hx hdx)
    have hle := rCorr_sq_le_one x y hlen
    have hne : rCorr x y * rCorr x y ≠ 1 := by
      intro habs
      rcases mul_self_eq_one_iff.mp habs with h1 | h1
      · exact h.1 h1
      · exact h.2 h1
    exact lt_of_le_of_ne hle hne
  · intro h
    rw [hbridge]
    exact pvalueGF_nan _ _ h

/-- **C2** (witness).  The amended theorem applied to `x = [1,2,3]`,
`y = [2,1,3]` (correlation `1/2`): the p-value is finite. -/
theorem calculatePearsonCorrelation_pValue_finiteness_witness :
    ((calculatePearsonCorrelation (([1, 2, 3] : List ℝ).map .fin)
      (([2, 1, 3] : List ℝ).map .fin)).2).IsFinite := by
  have hvx : rVar ([1, 2, 3] : List ℝ) = 2 := by
    norm_num [rVar, rMean, rSum, List.foldl_cons, List.foldl_nil]
  have hvy : rVar ([2, 1, 3] : List ℝ) = 2 := by
    norm_num [rVar, rMean, rSum, List.foldl_cons, List.foldl_nil]
  have hnum : rNum ([1, 2, 3] : List ℝ) ([2, 1, 3] : List ℝ) = 1 := by
    norm_num [rNum, rMean, rSum, List.zip, List.zipWith,
      List.foldl_cons, List.foldl_nil]
  have hcorr : rCorr ([1, 2, 3] : List ℝ) ([2, 1, 3] : List ℝ) = 1 / 2 := by
    rw [rCorr, hvx, hvy, hnum]
    rw [show (2 : ℝ) * 2 = 2 ^ 2 by norm_num, Real.sqrt_sq (by norm_num)]
  exact (calculatePearsonCorrelation_pValue_finiteness [1, 2, 3] [2, 1, 3]
    (by norm_num) (by simp) (by rw [hvx]; norm_num)
    (by rw [hvy]; norm_num)).2.1 (by rw [hcorr]; norm_num)

/-- **C2** (counterexample).  For the exactly linearly related series
`x = y = [1, 2, 3]` (variance sums both `2 ≠ 0`, correlation exactly `1`)
the p-value returned by `calculatePearsonCorrelation` is `NaN`, not
finite: `1 - r² = 0`, `(n-2)/0 = +Inf`, and `Inf/Inf = NaN`. -/
theorem calculatePearsonCorrelation_pValue_nan_at_linear :
    (calculatePearsonCorrelation (([1, 2, 3] : List ℝ).map .fin)
        (([1, 2, 3] : List ℝ).map .fin)).2 = GFloat.nan ∧
    ¬ ((calculatePearsonCorrelation (([1, 2, 3] : List ℝ).map .fin)
        (([1, 2, 3] : List ℝ).map .fin)).2).IsFinite := by
  have hvx : rVar ([1, 2, 3] : List ℝ) = 2 := by
    norm_num [rVar, rMean, rSum, List.foldl_cons, List.foldl_nil]
  have hnum : rNum ([1, 2, 3] : List ℝ) ([1, 2, 3] : List ℝ) = 2 := by
    norm_num [rNum, rMean, rSum, List.zip, List.zipWith,
      List.foldl_cons, List.foldl_nil]
  have hcorr : rCorr ([1, 2, 3] : List ℝ) ([1, 2, 3] : List ℝ) = 1 := by
    rw [rCorr, hvx, hnum]
    rw [show (2 : ℝ) * 2 = 2 ^ 2 by norm_num, Real.sqrt_sq (by norm_num)]
    norm_num
  have hbridge := pearson_map_fin ([1, 2, 3] : List ℝ) [1, 2, 3] rfl
    (by simp)
  rw [if_neg (by rw [hvx]; norm_num)] at hbridge
  have hnan : (calculatePearsonCorrelation
      (([1, 2, 3] : List ℝ).map .fin) (([1, 2, 3] : List ℝ).map .fin)).2 =
      GFloat.nan := by
    rw [hbridge]
    exact pvalueGF_nan _ _ (Or.inl hcorr)
  exact ⟨hnan, by rw [hnan]; exact GFloat.isFinite_nan⟩

/-- **C5**.  `calculatePearsonCorrelation` returns the `(0, 1)` sentinel
for mismatched lengths or empty input and for any zero-variance series,
and returns correlation exactly `1` (resp. `-1`) on the reference inputs
`x = [1,2,3,4,5]` with `y = [2,4,6,8,10]` (resp. `y = [10,8,6,4,2]`). -/
theorem calculatePearsonCorrelation_sentinel_and_linear :
    (∀ x y : List GFloat, x.length ≠ y.length ∨ x.length = 0 →
      calculatePearsonCorrelation x y = (.fin 0, .fin 1)) ∧
    (∀ x y : List ℝ, x.length = y.length → x ≠ [] →
      rVar x = 0 ∨ rVar y = 0 →
      calculatePearsonCorrelation (x.map .fin) (y.map .fin) =
        (.fin 0, .fin 1)) ∧
    (calculatePearsonCorrelation (([1, 2, 3, 4, 5] : List ℝ).map .fin)
      (([2, 4, 6, 8, 10] : List ℝ).map .fin)).1 = .fin 1 ∧
    (calculatePearsonCorrelation (([1, 2, 3, 4, 5] : List ℝ).map .fin)
      (([10, 8, 6, 4, 2] : List ℝ).map .fin)).1 = .fin (-1) := by
  have hvx : rVar ([1, 2, 3, 4, 5] : List ℝ) = 10 := by
    norm_num [rVar, rMean, rSum, List.foldl_cons, List.foldl_nil]
  have hvy1 : rVar ([2, 4, 6, 8, 10] : List ℝ) = 40 := by
    norm_num [rVar, rMean, rSum, List.foldl_cons, List.foldl_nil]
  have hvy2 : rVar ([10, 8, 6, 4, 2] : List ℝ) = 40 := by
    norm_num [rVar, rMean, rSum, List.foldl_cons, List.foldl_nil]
  have hsqrt : Real.sqrt (10 * 40) = 20 := by
    rw [show (10 : ℝ) * 40 = 20 ^ 2 by norm_num, Real.sqrt_sq (by norm_num)]
  refine ⟨?_, ?_, ?_, ?_⟩
  · intro x y h
    unfold calculatePearsonCorrelation
    rw [if_pos h]
  · intro x y hlen hx h
    rw [pearson_map_fin x y hlen hx, if_pos h]
  · have hnum : rNum ([1, 2, 3, 4, 5] : List ℝ)
        ([2, 4, 6, 8, 10] : List ℝ) = 20 := by
      norm_num [rNum, rMean, rSum, List.zip, List.zipWith,
        List.foldl_cons, List.foldl_nil]
    rw [pearson_map_fin _ _ (by norm_num) (by simp),
      if_neg (by rw [hvx, hvy1]; norm_num)]
    show GFloat.fin _ = _
    rw [rCorr, hvx, hvy1, hnum, hsqrt]
    norm_num
  · have hnum : rNum ([1, 2, 3, 4, 5] : List ℝ)
        ([10, 8, 6, 4, 2] : List ℝ) = -20 := by
      norm_num [rNum, rMean, rSum, List.zip, List.zipWith,
        List.foldl_cons, List.foldl_nil]
    rw [pearson_map_fin _ _ (by norm_num) (by simp),
      if_neg (by rw [hvx, hvy2]; norm_num)]
    show GFloat.fin _ = _
    rw [rCorr, hvx, hvy2, hnum, hsqrt]
    norm_num

/-- **C5** (witness).  The sentinel branches of the claim theorem applied
at concrete inputs: mismatched lengths, and a constant series. -/
theorem calculatePearsonCorrelation_sentinel_witness :
    calculatePearsonCorrelation [GFloat.fin 1] [] = (.fin 0, .fin 1) ∧
    calculatePearsonCorrelation (([4, 4] : List ℝ).map .fin)
      (([1, 2] : List ℝ).map .fin) = (.fin 0, .fin 1) := by
  constructor
  · exact calculatePearsonCorrelation_sentinel_and_linear.1 [GFloat.fin 1] []
      (Or.inl (by norm_num))
  · exact calculatePearsonCorrelation_sentinel_and_linear.2.1 [4, 4] [1, 2]
      (by norm_num) (by simp)
      (Or.inl (by norm_num [rVar, rMean, rSum, List.foldl_cons,
        List.foldl_nil]))

/-- **C9**.  For every date, `calculateMoonPhase` returns
`phase = cycles − floor(cycles) ∈ [0, 1)` and
`illumination = 0.5 × (1 − cos(2π × phase)) ∈ [0, 1]`. -/
theorem calculateMoonPhase_range (t : ℚ) :
    (0 ≤ calculateMoonPhasePhase t ∧ calculateMoonPhasePhase t < 1) ∧
    (0 ≤ calculateMoonPhaseIllum t ∧ calculateMoonPhaseIllum t ≤ 1) := by
  have hphase : calculateMoonPhasePhase t = Int.fract (moonCycles t) := rfl
  refine ⟨⟨?_, ?_⟩, ?_, ?_⟩
  · rw [hphase]; exact Int.fract_nonneg _
  · rw [hphase]; exact Int.fract_lt_one _
  · have h := Real.cos_le_one (2 * Real.pi * (calculateMoonPhasePhase t : ℝ))
    unfold calculateMoonPhaseIllum
    linarith
  · have h := Real.neg_one_le_cos (2 * Real.pi * (calculateMoonPhasePhase t : ℝ))
    unfold calculateMoonPhaseIllum
    linarith

/-! ### Lottery analyzer (`lottery_analyzer.go`)

The accumulation pass of `analyzeData` over the parsed drawings.  Go maps
holding pointers are modelled as functions into `Option`; a lookup of a
missing key yields `none`, standing for Go's `nil` pointer, and the
subsequent field update on a `nil` pointer is the `none` branch of the
`Option`-valued pass (a panic in Go). -/

/-- A parsed drawing: date (Unix seconds), the five main numbers, and the
lucky ball. -/
structure Drawing where
  date : ℚ
  numbers : List ℤ
  luckyBall : ℤ
  deriving DecidableEq, Repr

/-- The fields of `NumberInfo` that the accumulation pass mutates.  The
derived fields (`AverageGap`, `StandardDeviation`, `CurrentGap`,
`ExpectedFrequency`, `ChiSquareComponent`) are written once by
`calculateStatistics` / `calculateChiSquare` and are modelled as the
functions further below.  `lastDrawnIndex = -1` means "never drawn";
`lastDrawnDate = 0` models Go's zero `time.Time`. -/
structure NumberInfo where
  number : ℤ
  totalFrequency : ℕ
  recentFrequency : ℕ
  lastDrawnIndex : ℤ
  lastDrawnDate : ℚ
  gapsSinceDrawn : List ℤ
  deriving DecidableEq, Repr

/-- The `NumberInfo` created for each tracked number by `NewAnalyzer`. -/
def initInfo (n : ℤ) : NumberInfo :=
  ⟨n, 0, 0, -1, 0, []⟩

/-- A pair/triple/quad pattern record.  The Go map key is the string of
the sorted members joined by `-`; that string determines and is
determined by the sorted member list, which we use as the key. -/
structure CombinationPattern where
  numbers : List ℤ
  frequency : ℕ
  lastSeen : ℤ
  deriving DecidableEq, Repr

/-- The mutable analysis state of `Analyzer` populated by `analyzeData`.
`oddEvenPatterns` is keyed by the (odd, even) counts that determine the
`"{odd}O-{even}E"` string key. -/
structure AnalyzerState where
  mainNumbers : ℤ → Option NumberInfo
  luckyBalls : ℤ → Option NumberInfo
  pairPatterns : List ℤ → Option CombinationPattern
  triplePatterns : List ℤ → Option CombinationPattern
  quadPatterns : List ℤ → Option CombinationPattern
  oddEvenPatterns : ℕ × ℕ → ℕ
  sumRanges : ℤ → ℕ
  decadeDistribution : ℤ → ℕ
  consecutiveCount : ℕ

/-- The state built by `NewAnalyzer`: main numbers 1–48 and lucky balls
1–18 initialised, every pattern map empty. -/
def initState : AnalyzerState where
  mainNumbers := fun n => if 1 ≤ n ∧ n ≤ 48 then some (initInfo n) else none
  luckyBalls := fun n => if 1 ≤ n ∧ n ≤ 18 then some (initInfo n) else none
  pairPatterns := fun _ => none
  triplePatterns := fun _ => none
  quadPatterns := fun _ => none
  oddEvenPatterns := fun _ => 0
  sumRanges := fun _ => 0
  decadeDistribution := fun _ => 0
  consecutiveCount := 0

/-- `updateNumberInfo`: increment the frequency, append the gap since the
previous appearance when there is one, and record the appearance. -/
def updateNumberInfo (info : NumberInfo) (idx : ℤ) (date : ℚ) : NumberInfo :=
  { info with
    totalFrequency := info.totalFrequency + 1
    gapsSinceDrawn :=
      if info.lastDrawnIndex ≠ -1 then
        info.gapsSinceDrawn ++ [idx - info.lastDrawnIndex]
      else info.gapsSinceDrawn
    lastDrawnIndex := idx
    lastDrawnDate := date }

/-- The `RecentFrequency++` performed by `analyzeData` when
`idx < config.RecentWindow`. -/
def bumpRecent (info : NumberInfo) (recent : Bool) : NumberInfo :=
  if recent then { info with recentFrequency := info.recentFrequency + 1 }
  else info

/-- The main-number loop body of `analyzeData`: look each drawn number up
(`none` = `nil` pointer = panic on the subsequent update), update it, and
store it back. -/
def updateNumbers :
    (ℤ → Option NumberInfo) → List ℤ → ℤ → ℚ → Bool →
      Option (ℤ → Option NumberInfo)
  | mn, [], _, _, _ => some mn
  | mn, n :: rest, idx, date, recent =>
      match mn n with
      | none => none
      | some info =>
          updateNumbers
            (fun k => if k = n then
                some (bumpRecent (updateNumberInfo info idx date) recent)
              else mn k)
            rest idx date recent

/-- Sorting with `sort.Ints`. -/
def sortInts (l : List ℤ) : List ℤ := l.mergeSort

/-- The pair keys enumerated by the `i < j` loops of
`analyzeCombinations`, in loop order. -/
def subPairs : List ℤ → List (List ℤ)
  | [] => []
  | x :: xs => xs.map (fun y => [x, y]) ++ subPairs xs

/-- The triple keys enumerated by the `i < j < k` loops. -/
def subTriples : List ℤ → List (List ℤ)
  | [] => []
  | x :: xs => (subPairs xs).map (fun p => x :: p) ++ subTriples xs

/-- The quad keys enumerated by the `i < j < k < l` loops. -/
def subQuads : List ℤ → List (List ℤ)
  | [] => []
  | x :: xs => (subTriples xs).map (fun p => x :: p) ++ subQuads xs

/-- Increment-or-create for one combination key. -/
def bumpPattern (pp : List ℤ → Option CombinationPattern) (key : List ℤ)
    (idx : ℤ) : List ℤ → Option CombinationPattern :=
  fun k =>
    if k = key then
      match pp key with
      | some pat => some { pat with
          frequency := pat.frequency + 1
          lastSeen := idx }
      | none => some ⟨key, 1, idx⟩
    else pp k

/-- Fold `bumpPattern` over a list of keys. -/
def bumpPatterns (pp : List ℤ → Option CombinationPattern)
    (keys : List (List ℤ)) (idx : ℤ) : List ℤ → Option CombinationPattern :=
  keys.foldl (fun m k => bumpPattern m k idx) pp

/-- `analyzeCombinations`: bump every 2-, 3- and 4-subset of the sorted
numbers. -/
def analyzeCombinations (st : AnalyzerState) (numbers : List ℤ) (idx : ℤ) :
    AnalyzerState :=
  let sorted := sortInts numbers
  { st with
    pairPatterns := bumpPatterns st.pairPatterns (subPairs sorted) idx
    triplePatterns := bumpPatterns st.triplePatterns (subTriples sorted) idx
    quadPatterns := bumpPatterns st.quadPatterns (subQuads sorted) idx }

/-- Adjacency check of `analyzePatterns` over the sorted numbers. -/
def hasConsecutive : List ℤ → Bool
  | x :: y :: rest => decide (y - x = 1) || hasConsecutive (y :: rest)
  | _ => false

/-- Point increment of a counting map. -/
def bumpCount {α : Type} [DecidableEq α] (f : α → ℕ) (a : α) : α → ℕ :=
  fun k => if k = a then f a + 1 else f k

/-- `analyzePatterns`: odd/even split (Go `num % 2 == 1`, truncated
remainder), decade tally `(num-1)/10` (truncated division), sum bucket
`(sum/20)*20`, and the once-per-drawing consecutive flag. -/
def analyzePatterns (st : AnalyzerState) (d : Drawing) : AnalyzerState :=
  let sorted := sortInts d.numbers
  let odd := (sorted.filter (fun n => goIntMod n 2 = 1)).length
  let even := (sorted.filter (fun n => ¬ goIntMod n 2 = 1)).length
  let sum := sorted.sum
  { st with
    decadeDistribution :=
      sorted.foldl (fun f n => bumpCount f (Int.tdiv (n - 1) 10))
        st.decadeDistribution
    oddEvenPatterns := bumpCount st.oddEvenPatterns (odd, even)
    sumRanges := bumpCount st.sumRanges (Int.tdiv sum 20 * 20)
    consecutiveCount :=
      st.consecutiveCount + (if hasConsecutive sorted then 1 else 0) }

/-- The per-drawing body of `analyzeData`, iterated over the drawing
list with the running index; `rw` is `config.RecentWindow`. -/
def analyzeLoop (rw : ℤ) : List Drawing → ℤ → AnalyzerState →
    Option AnalyzerState
  | [], _, st => some st
  | d :: rest, idx, st =>
      match updateNumbers st.mainNumbers d.numbers idx d.date
        (decide (idx < rw)) with
      | none => none
      | some mn =>
          match st.luckyBalls d.luckyBall with
          | none => none
          | some lbInfo =>
              let lb := fun k => if k = d.luckyBall then
                  some (bumpRecent (updateNumberInfo lbInfo idx d.date)
                    (decide (idx < rw)))
                else st.luckyBalls k
              let st1 := { st with mainNumbers := mn, luckyBalls := lb }
              let st2 := analyzeCombinations st1 d.numbers idx
              let st3 := analyzePatterns st2 d
              analyzeLoop rw rest (idx + 1) st3

/-- `analyzeData`: the full accumulation pass from the `NewAnalyzer`
state.  (`calculateStatistics` / `calculateChiSquare`, which only compute
derived values from this state, are the functions below.) -/
def analyzeData (rw : ℤ) (ds : List Drawing) : Option AnalyzerState :=
  analyzeLoop rw ds 0 initState

/-! Derived statistics (`calculateStatistics`, `calculateChiSquare`). -/

/-- `AverageGap` as set by `calculateStatistics` (0 when no gaps). -/
def averageGap (info : NumberInfo) : ℚ :=
  if 0 < info.gapsSinceDrawn.length then
    (info.gapsSinceDrawn.sum : ℚ) / info.gapsSinceDrawn.length
  else 0

/-- `StandardDeviation` as set by `calculateStatistics` (0 when no
gaps). -/
noncomputable def standardDeviation (info : NumberInfo) : ℝ :=
  if 0 < info.gapsSinceDrawn.length then
    Real.sqrt ((info.gapsSinceDrawn.foldl
      (fun a g => a + ((g : ℝ) - (averageGap info : ℝ)) *
        ((g : ℝ) - (averageGap info : ℝ))) 0) /
      info.gapsSinceDrawn.length)
  else 0

/-- `CurrentGap` as set by `calculateStatistics`: the last drawn index. -/
def currentGap (info : NumberInfo) : ℤ := info.lastDrawnIndex

/-- `ExpectedFrequency` for main numbers: `totalDrawings * 5 / 48`. -/
def expectedFrequencyMain (totalDrawings : ℕ) : ℚ :=
  (totalDrawings : ℚ) * 5 / 48

/-- `ExpectedFrequency` for lucky balls: `totalDrawings / 18`. -/
def expectedFrequencyLucky (totalDrawings : ℕ) : ℚ :=
  (totalDrawings : ℚ) / 18

/-- One chi-square component `(observed − expected)² / expected`. -/
def chiSquareComponent (freq : ℕ) (expected : ℚ) : ℚ :=
  ((freq : ℚ) - expected) * ((freq : ℚ) - expected) / expected

/-- The main-number partial sum of `calculateChiSquare` (components
guarded by `ExpectedFrequency > 0`). -/
def chiSquareMain (st : AnalyzerState) (totalDrawings : ℕ) : ℚ :=
  ∑ i ∈ Finset.Icc (1 : ℤ) 48,
    match st.mainNumbers i with
    | some info =>
        if 0 < expectedFrequencyMain totalDrawings then
          chiSquareComponent info.totalFrequency
            (expectedFrequencyMain totalDrawings)
        else 0
    | none => 0

/-- The lucky-ball partial sum of `calculateChiSquare`. -/
def chiSquareLucky (st : AnalyzerState) (totalDrawings : ℕ) : ℚ :=
  ∑ i ∈ Finset.Icc (1 : ℤ) 18,
    match st.luckyBalls i with
    | some info =>
        if 0 < expectedFrequencyLucky totalDrawings then
          chiSquareComponent info.totalFrequency
            (expectedFrequencyLucky totalDrawings)
        else 0
    | none => 0

/-- `a.chiSquareValue`: the total chi-square. -/
def chiSquareValue (st : AnalyzerState) (totalDrawings : ℕ) : ℚ :=
  chiSquareMain st totalDrawings + chiSquareLucky st totalDrawings

/-- Chi-square critical value 64.001 (df = 47, α = 0.05). -/
def mainCritical : ℚ := 64001 / 1000

/-- Chi-square critical value 27.587 (df = 17, α = 0.05). -/
def luckyCritical : ℚ := 27587 / 1000

/-- `a.randomnessScore`: the average of the two clamped percentages. -/
def randomnessScore (st : AnalyzerState) (totalDrawings : ℕ) : ℚ :=
  (100 * (1 - min (chiSquareMain st totalDrawings / mainCritical) 1) +
    100 * (1 - min (chiSquareLucky st totalDrawings / luckyCritical) 1)) / 2

theorem chiSquareMain_nonneg (st : AnalyzerState) (n : ℕ) :
    0 ≤ chiSquareMain st n := by
  apply Finset.sum_nonneg
  intro i _
  cases h : st.mainNumbers i with
  | none => simp [h]
  | some info =>
      simp only [h]
      split_ifs with hpos
      · exact div_nonneg (mul_self_nonneg _) (le_of_lt hpos)
      · exact le_refl 0

theorem chiSquareLucky_nonneg (st : AnalyzerState) (n : ℕ) :
    0 ≤ chiSquareLucky st n := by
  apply Finset.sum_nonneg
  intro i _
  cases h : st.luckyBalls i with
  | none => simp [h]
  | some info =>
      simp only [h]
      split_ifs with hpos
      · exact div_nonneg (mul_self_nonneg _) (le_of_lt hpos)
      · exact le_refl 0

theorem chiSquareMain_init_zero : chiSquareMain initState 0 = 0 := by
  apply Finset.sum_eq_zero
  intro i _
  cases h : initState.mainNumbers i <;>
    simp [h, expectedFrequencyMain]

theorem chiSquareLucky_init_zero : chiSquareLucky initState 0 = 0 := by
  apply Finset.sum_eq_zero
  intro i _
  cases h : initState.luckyBalls i <;>
    simp [h, expectedFrequencyLucky]

/-- **C6**.  The randomness score is the average of
`100 × (1 − min(partialSum/criticalValue, 1))` over the main group
(critical value 64.001) and the lucky group (critical value 27.587); it
lies in `[0, 100]` for every analyzer state; and for the empty drawing
sequence the chi-square value is 0 and the score is 100. -/
theorem randomnessScore_spec :
    (∀ st n, randomnessScore st n =
      (100 * (1 - min (chiSquareMain st n / mainCritical) 1) +
        100 * (1 - min (chiSquareLucky st n / luckyCritical) 1)) / 2) ∧
    (∀ st n, 0 ≤ randomnessScore st n ∧ randomnessScore st n ≤ 100) ∧
    analyzeData 50 [] = some initState ∧
    chiSquareValue initState 0 = 0 ∧
    randomnessScore initState 0 = 100 := by
  refine ⟨fun st n => rfl, fun st n => ?_, rfl, ?_, ?_⟩
  · have h1 := chiSquareMain_nonneg st n
    have h2 := chiSquareLucky_nonneg st n
    have hm1 : 0 ≤ min (chiSquareMain st n / mainCritical) 1 :=
      le_min (div_nonneg h1 (by norm_num [mainCritical])) zero_le_one
    have hm2 : 0 ≤ min (chiSquareLucky st n / luckyCritical) 1 :=
      le_min (div_nonneg h2 (by norm_num [luckyCritical])) zero_le_one
    have hM1 : min (chiSquareMain st n / mainCritical) 1 ≤ 1 :=
      min_le_right _ _
    have hM2 : min (chiSquareLucky st n / luckyCritical) 1 ≤ 1 :=
      min_le_right _ _
    rw [randomnessScore]
    constructor <;> linarith
  · rw [chiSquareValue, chiSquareMain_init_zero, chiSquareLucky_init_zero]
    norm_num
  · rw [randomnessScore, chiSquareMain_init_zero, chiSquareLucky_init_zero]
    norm_num

/-! ### The implicit range precondition of `analyzeData` (C10) -/

/-- The validity invariant ingestion is assumed to guarantee: five main
numbers in `[1, 48]` and a lucky ball in `[1, 18]`. -/
def ValidDrawing (d : Drawing) : Prop :=
  (∀ n ∈ d.numbers, 1 ≤ n ∧ n ≤ 48) ∧ 1 ≤ d.luckyBall ∧ d.luckyBall ≤ 18

instance : DecidablePred ValidDrawing := fun d =>
  inferInstanceAs (Decidable ((∀ n ∈ d.numbers, 1 ≤ n ∧ n ≤ 48) ∧
    1 ≤ d.luckyBall ∧ d.luckyBall ≤ 18))

theorem updateNumbers_isSome {mn : ℤ → Option NumberInfo}
    {nums : List ℤ} {idx : ℤ} {date : ℚ} {recent : Bool}
    (h : ∀ n ∈ nums, (mn n).isSome) :
    ∃ mn', updateNumbers mn nums idx date recent = some mn' ∧
      ∀ k, (mn k).isSome → (mn' k).isSome := by
  induction nums generalizing mn with
  | nil => exact ⟨mn, rfl, fun k hk => hk⟩
  | cons n rest ih =>
      have hn : (mn n).isSome := h n (List.mem_cons_self n rest)
      obtain ⟨info, hinfo⟩ := Option.isSome_iff_exists.mp hn
      have hrest : ∀ m ∈ rest,
          ((fun k => if k = n then
              some (bumpRecent (updateNumberInfo info idx date) recent)
            else mn k) m).isSome := by
        intro m hm
        by_cases hmn : m = n
        · simp [hmn]
        · simpa [hmn] using h m (List.mem_cons_of_mem n hm)
      obtain ⟨mn', hmn', hpres⟩ := ih hrest
      refine ⟨mn', ?_, ?_⟩
      · simp only [updateNumbers, hinfo]
        exact hmn'
      · intro k hk
        apply hpres
        by_cases hkn : k = n
        · simp [hkn]
        · simpa [hkn] using hk

theorem analyzeLoop_isSome (rw : ℤ) (ds : List Drawing) :
    ∀ (idx : ℤ) (st : AnalyzerState),
    (∀ d ∈ ds, ValidDrawing d) →
    (∀ k, 1 ≤ k ∧ k ≤ 48 → (st.mainNumbers k).isSome) →
    (∀ k, 1 ≤ k ∧ k ≤ 18 → (st.luckyBalls k).isSome) →
    (analyzeLoop rw ds idx st).isSome := by
  induction ds with
  | nil => intro idx st _ _ _; exact rfl
  | cons d rest ih =>
      intro idx st hvalid hmain hlucky
      have hd : ValidDrawing d := hvalid d (List.mem_cons_self d rest)
      have hnums : ∀ n ∈ d.numbers, (st.mainNumbers n).isSome :=
        fun n hn => hmain n (hd.1 n hn)
      obtain ⟨mn', hmn', hpres⟩ := @updateNumbers_isSome st.mainNumbers
        d.numbers idx d.date (decide (idx < rw)) hnums
      have hlb : (st.luckyBalls d.luckyBall).isSome := hlucky _ hd.2
      obtain ⟨lbInfo, hlbInfo⟩ := Option.isSome_iff_exists.mp hlb
      simp only [analyzeLoop, hmn', hlbInfo]
      apply ih (idx + 1)
      · exact fun d' hd' => hvalid d' (List.mem_cons_of_mem d hd')
      · intro k hk
        exact hpres k (hmain k hk)
      · intro k hk
        by_cases hkl : k = d.luckyBall
        · simp [analyzeCombinations, analyzePatterns, hkl]
        · simpa [analyzeCombinations, analyzePatterns, hkl]
            using hlucky k hk

/-- The reference five-drawing fixture of the test suite (dates
01/03/2024 … 01/15/2024 as Unix seconds, oldest first — index 0 is the
oldest after the ingestion reversal). -/
def fixtureDrawings : List Drawing :=
  [⟨1704240000, [2, 11, 23, 34, 41], 3⟩,
   ⟨1704499200, [7, 12, 25, 33, 48], 15⟩,
   ⟨1704758400, [5, 18, 23, 35, 42], 7⟩,
   ⟨1705017600, [3, 15, 22, 38, 44], 12⟩,
   ⟨1705276800, [5, 12, 23, 34, 45], 7⟩]

/-- **C10**.  Under the implicit range precondition (main numbers in
`[1, 48]`, lucky ball in `[1, 18]`) every map lookup of `analyzeData`
succeeds and the pass completes; and the precondition is necessary: a
drawing containing 49 makes the lookup yield `nil` and the pass reach the
error (panic) branch. -/
theorem analyzeData_range_precondition :
    (∀ (rw : ℤ) (ds : List Drawing), (∀ d ∈ ds, ValidDrawing d) →
      (analyzeData rw ds).isSome) ∧
    (analyzeData 50 [⟨0, [1, 2, 3, 4, 49], 1⟩]).isSome = false := by
  constructor
  · intro rw ds hvalid
    apply analyzeLoop_isSome rw ds 0 initState hvalid
    · intro k hk
      simp [initState, hk]
    · intro k hk
      simp [initState, hk]
  · rfl

/-- **C10** (witness).  The success half applied to the reference
fixture, whose drawings are all in range. -/
theorem analyzeData_range_precondition_witness :
    (∀ d ∈ fixtureDrawings, ValidDrawing d) ∧
      (analyzeData 50 fixtureDrawings).isSome :=
  ⟨by decide,
    analyzeData_range_precondition.1 50 fixtureDrawings (by decide)⟩

/-! ### Frequency / gap / pair bookkeeping (C7) -/

/-- The accumulation-relevant projection of a `NumberInfo`:
(totalFrequency, gapsSinceDrawn, lastDrawnIndex). -/
def gapView (info : NumberInfo) : ℕ × List ℤ × ℤ :=
  (info.totalFrequency, info.gapsSinceDrawn, info.lastDrawnIndex)

/-- The effect of one recorded appearance at index `idx` on the
projection. -/
def stepView (v : ℕ × List ℤ × ℤ) (idx : ℤ) : ℕ × List ℤ × ℤ :=
  (v.1 + 1, if v.2.2 ≠ -1 then v.2.1 ++ [idx - v.2.2] else v.2.1, idx)

theorem gapView_update (info : NumberInfo) (idx : ℤ) (date : ℚ)
    (r : Bool) :
    gapView (bumpRecent (updateNumberInfo info idx date) r) =
      stepView (gapView info) idx := by
  cases r <;> rfl

/-- The appearance indices of number `m` over a drawing list starting at
index `idx` (with multiplicity within one drawing's number list). -/
def occEvents (m : ℤ) : List Drawing → ℤ → List ℤ
  | [], _ => []
  | d :: rest, idx =>
      List.replicate (d.numbers.count m) idx ++ occEvents m rest (idx + 1)

theorem updateNumbers_gapView {nums : List ℤ} :
    ∀ {mn mn' : ℤ → Option NumberInfo} {idx : ℤ} {date : ℚ} {r : Bool}
      {m : ℤ} {info : NumberInfo},
    updateNumbers mn nums idx date r = some mn' →
    mn m = some info →
    ∃ info', mn' m = some info' ∧
      gapView info' =
        (List.replicate (nums.count m) idx).foldl stepView (gapView info) := by
  induction nums with
  | nil =>
      intro mn mn' idx date r m info h hm
      simp only [updateNumbers, Option.some.injEq] at h
      exact ⟨info, by rw [← h]; exact hm, by simp⟩
  | cons n rest ih =>
      intro mn mn' idx date r m info h hm
      cases hn : mn n with
      | none =>
          simp only [updateNumbers, hn] at h
          exact Option.noConfusion h
      | some infoN =>
          simp only [updateNumbers, hn] at h
          by_cases hmn : m = n
          · subst hmn
            have hinfo : info = infoN := by
              rw [hm] at hn; exact (Option.some.injEq _ _).mp hn
            subst hinfo
            have hm1 : (fun k => if k = m then
                some (bumpRecent (updateNumberInfo info idx date) r)
              else mn k) m =
                some (bumpRecent (updateNumberInfo info idx date) r) := by
              simp
            obtain ⟨info', hi', hview⟩ := ih h hm1
            refine ⟨info', hi', ?_⟩
            rw [hview, gapView_update]
            rw [List.count_cons_self, List.replicate_succ, List.foldl_cons]
          · have hm1 : (fun k => if k = n then
                some (bumpRecent (updateNumberInfo infoN idx date) r)
              else mn k) m = some info := by
              simp [hmn, hm]
            obtain ⟨info', hi', hview⟩ := ih h hm1
            refine ⟨info', hi', ?_⟩
            rw [hview, List.count_cons_of_ne hmn]

theorem analyzeLoop_gapView (rw : ℤ) (ds : List Drawing) :
    ∀ (idx : ℤ) (st st' : AnalyzerState),
    analyzeLoop rw ds idx st = some st' →
    ∀ (m : ℤ) (info : NumberInfo), st.mainNumbers m = some info →
    ∃ info', st'.mainNumbers m = some info' ∧
      gapView info' = (occEvents m ds idx).foldl stepView (gapView info) := by
  induction ds with
  | nil =>
      intro idx st st' h m info hm
      simp only [analyzeLoop, Option.some.injEq] at h
      exact ⟨info, by rw [← h]; exact hm, by simp [occEvents]⟩
  | cons d rest ih =>
      intro idx st st' h m info hm
      cases hu : updateNumbers st.mainNumbers d.numbers idx d.date
          (decide (idx < rw)) with
      | none =>
          simp only [analyzeLoop, hu] at h
          exact Option.noConfusion h
      | some mn =>
          cases hlb : st.luckyBalls d.luckyBall with
          | none =>
              simp only [analyzeLoop, hu, hlb] at h
              exact Option.noConfusion h
          | some lbInfo =>
              simp only [analyzeLoop, hu, hlb] at h
              obtain ⟨info1, hi1, hview1⟩ := updateNumbers_gapView hu hm
              obtain ⟨info', hi', hview'⟩ := ih (idx + 1) _ st' h m info1 hi1
              refine ⟨info', hi', ?_⟩
              rw [hview', hview1, occEvents, List.foldl_append]

theorem foldl_stepView_fst :
    ∀ (es : List ℤ) (v : ℕ × List ℤ × ℤ),
      (es.foldl stepView v).1 = v.1 + es.length
  | [], v => by simp
  | e :: es, v => by
      rw [List.foldl_cons, foldl_stepView_fst es]
      simp [stepView]
      omega

theorem occEvents_length (m : ℤ) (ds : List Drawing)
    (hnd : ∀ d ∈ ds, d.numbers.Nodup) :
    ∀ idx, (occEvents m ds idx).length =
      (ds.filter (fun d => decide (m ∈ d.numbers))).length := by
  induction ds with
  | nil => intro idx; rfl
  | cons d rest ih =>
      intro idx
      have hd := hnd d (List.mem_cons_self d rest)
      have hrest : ∀ d' ∈ rest, d'.numbers.Nodup :=
        fun d' h' => hnd d' (List.mem_cons_of_mem d h')
      rw [occEvents, List.length_append, List.length_replicate,
        ih hrest (idx + 1)]
      by_cases hmem : m ∈ d.numbers
      · rw [List.count_eq_one_of_mem hd hmem]
        simp [List.filter_cons, hmem]
        omega
      · rw [List.count_eq_zero.mpr hmem]
        simp [List.filter_cons, hmem]

/-- The frequency stored for one combination key (0 if the key was never
seen). -/
def patFreq (pp : List ℤ → Option CombinationPattern) (k : List ℤ) : ℕ :=
  match pp k with
  | some pat => pat.frequency
  | none => 0

theorem patFreq_bumpPattern (pp : List ℤ → Option CombinationPattern)
    (key : List ℤ) (idx : ℤ) (k : List ℤ) :
    patFreq (bumpPattern pp key idx) k =
      patFreq pp k + if k = key then 1 else 0 := by
  by_cases hk : k = key
  · subst hk
    unfold patFreq bumpPattern
    cases pp k <;> simp
  · unfold patFreq bumpPattern
    simp [hk]

theorem patFreq_bumpPatterns (idx : ℤ) :
    ∀ (ks : List (List ℤ)) (pp : List ℤ → Option CombinationPattern)
      (k : List ℤ),
    patFreq (bumpPatterns pp ks idx) k = patFreq pp k + ks.count k
  | [], pp, k => by simp [bumpPatterns]
  | key :: ks, pp, k => by
      rw [show bumpPatterns pp (key :: ks) idx =
        bumpPatterns (bumpPattern pp key idx) ks idx from rfl]
      rw [patFreq_bumpPatterns idx ks _ k, patFreq_bumpPattern]
      by_cases hk : k = key
      · subst hk
        rw [if_pos rfl, List.count_cons_self]
        omega
      · rw [if_neg hk, List.count_cons_of_ne hk]
        omega

/-- The pair-key occurrence count over the drawings, following the
per-drawing `subPairs` of the sorted numbers. -/
def pairOcc (k : List ℤ) : List Drawing → ℕ
  | [] => 0
  | d :: rest => (subPairs (sortInts d.numbers)).count k + pairOcc k rest

theorem pairPatterns_analyze (st : AnalyzerState) (nums : List ℤ)
    (idx : ℤ) (d : Drawing) :
    (analyzePatterns (analyzeCombinations st nums idx) d).pairPatterns =
      bumpPatterns st.pairPatterns (subPairs (sortInts nums)) idx := rfl

theorem analyzeLoop_patFreq (rw : ℤ) (ds : List Drawing) :
    ∀ (idx : ℤ) (st st' : AnalyzerState),
    analyzeLoop rw ds idx st = some st' →
    ∀ k, patFreq st'.pairPatterns k =
      patFreq st.pairPatterns k + pairOcc k ds := by
  induction ds with
  | nil =>
      intro idx st st' h k
      simp only [analyzeLoop, Option.some.injEq] at h
      rw [← h]
      simp [pairOcc]
  | cons d rest ih =>
      intro idx st st' h k
      cases hu : updateNumbers st.mainNumbers d.numbers idx d.date
          (decide (idx < rw)) with
      | none =>
          simp only [analyzeLoop, hu] at h
          exact Option.noConfusion h
      | some mn =>
          cases hlb : st.luckyBalls d.luckyBall with
          | none =>
              simp only [analyzeLoop, hu, hlb] at h
              exact Option.noConfusion h
          | some lbInfo =>
              simp only [analyzeLoop, hu, hlb] at h
              rw [ih (idx + 1) _ st' h k]
              simp only [pairPatterns_analyze]
              rw [patFreq_bumpPatterns]
              simp only [pairOcc]
              omega

theorem count_map_pair (x b : ℤ) (xs : List ℤ) :
    (xs.map (fun y => [x, y])).count [x, b] = xs.count b := by
  induction xs with
  | nil => rfl
  | cons u us ih =>
      rw [List.map_cons, List.count_cons, List.count_cons, ih]
      by_cases hub : u = b
      · subst hub
        simp
      · simp [hub]

theorem subPairs_count_sorted {l : List ℤ} (hs : l.Sorted (· < ·))
    {a b : ℤ} (hab : a < b) :
    (subPairs l).count [a, b] = if a ∈ l ∧ b ∈ l then 1 else 0 := by
  induction l with
  | nil => simp [subPairs]
  | cons x xs ih =>
      have hx : ∀ y ∈ xs, x < y := List.rel_of_sorted_cons hs
      have hs' : xs.Sorted (· < ·) := List.Sorted.of_cons hs
      have hnd : xs.Nodup := hs'.nodup
      rw [subPairs, List.count_append, ih hs']
      by_cases hxa : x = a
      · subst hxa
        have hmap : (xs.map (fun y => [x, y])).count [x, b] = xs.count b :=
          count_map_pair x b xs
        have hxnot : x ∉ xs := fun hmem => absurd (hx x hmem) (lt_irrefl x)
        rw [hmap, if_neg (fun hc => hxnot hc.1)]
        by_cases hb : b ∈ xs
        · rw [List.count_eq_one_of_mem hnd hb,
            if_pos ⟨List.mem_cons_self x xs, List.mem_cons_of_mem x hb⟩]
        · rw [List.count_eq_zero.mpr hb, if_neg]
          intro hc
          rcases List.mem_cons.mp hc.2 with hbx | hbxs
          · exact absurd (hbx ▸ hab) (lt_irrefl x)
          · exact hb hbxs
      · have hmap : (xs.map (fun y => [x, y])).count [a, b] = 0 := by
          rw [List.count_eq_zero]
          intro hmem
          obtain ⟨y, _, hy⟩ := List.mem_map.mp hmem
          injection hy with h1 _
          exact hxa h1
        have hiff : (a ∈ x :: xs ∧ b ∈ x :: xs) ↔ (a ∈ xs ∧ b ∈ xs) := by
          constructor
          · rintro ⟨ha, hb⟩
            rcases List.mem_cons.mp ha with hax | ha'
            · exact absurd hax.symm hxa
            rcases List.mem_cons.mp hb with hbx | hb'
            · exact absurd (lt_trans (hx a ha') (hbx ▸ hab)) (lt_irrefl x)
            · exact ⟨ha', hb'⟩
          · rintro ⟨ha, hb⟩
            exact ⟨List.mem_cons_of_mem x ha, List.mem_cons_of_mem x hb⟩
        rw [hmap, if_congr hiff rfl rfl]
        omega

theorem sortInts_sorted_lt {l : List ℤ} (h : l.Nodup) :
    (sortInts l).Sorted (· < ·) := by
  have hs : (sortInts l).Sorted (· ≤ ·) := List.sorted_mergeSort' l
  have hnd : (sortInts l).Nodup := ((l.mergeSort_perm _).nodup_iff).mpr h
  exact hs.lt_of_le hnd

theorem mem_sortInts {l : List ℤ} {a : ℤ} : a ∈ sortInts l ↔ a ∈ l :=
  (l.mergeSort_perm _).mem_iff

theorem pairOcc_eq_filter {a b : ℤ} (hab : a < b) :
    ∀ (ds : List Drawing), (∀ d ∈ ds, d.numbers.Nodup) →
    pairOcc [a, b] ds =
      (ds.filter (fun d => decide (a ∈ d.numbers ∧ b ∈ d.numbers))).length := by
  intro ds
  induction ds with
  | nil => intro _; rfl
  | cons d rest ih =>
      intro hnd
      have hd := hnd d (List.mem_cons_self d rest)
      have hrest : ∀ d' ∈ rest, d'.numbers.Nodup :=
        fun d' h' => hnd d' (List.mem_cons_of_mem d h')
      rw [pairOcc, ih hrest,
        subPairs_count_sorted (sortInts_sorted_lt hd) hab]
      by_cases hm : a ∈ d.numbers ∧ b ∈ d.numbers
      · rw [if_pos (by rw [mem_sortInts, mem_sortInts]; exact hm)]
        simp [List.filter_cons, hm]
        omega
      · rw [if_neg (by rw [mem_sortInts, mem_sortInts]; exact hm)]
        simp [List.filter_cons, hm]

/-- The `NumberInfo` stored for number `m` after a full `analyzeData`
pass (`none` if the pass panicked or `m` is untracked). -/
def mainInfoAfter (rw : ℤ) (ds : List Drawing) (m : ℤ) : Option NumberInfo :=
  match analyzeData rw ds with
  | some st => st.mainNumbers m
  | none => none

/-- The pair-pattern frequency for key `k` after a full `analyzeData`
pass. -/
def pairFreqAfter (rw : ℤ) (ds : List Drawing) (k : List ℤ) : ℕ :=
  match analyzeData rw ds with
  | some st => patFreq st.pairPatterns k
  | none => 0

/-- **C7**.  After the accumulate-then-finalize pass over any valid
drawing sequence (numbers in range and duplicate-free per drawing): a
number appearing in exactly `k` drawings has `totalFrequency = k`; a
number whose appearances are exactly at drawing indices 2 and 4 has
`gapsSinceDrawn = [2]` and `currentGap = 4`; and a pair co-occurring in
exactly `c` drawings has pair frequency `c`. -/
theorem analyzeData_bookkeeping (rw : ℤ) (ds : List Drawing)
    (hval : ∀ d ∈ ds, ValidDrawing d) (hnd : ∀ d ∈ ds, d.numbers.Nodup) :
    (∀ m : ℤ, 1 ≤ m → m ≤ 48 →
      ∃ info, mainInfoAfter rw ds m = some info ∧
        info.totalFrequency =
          (ds.filter (fun d => decide (m ∈ d.numbers))).length ∧
        (occEvents m ds 0 = [2, 4] →
          info.gapsSinceDrawn = [2] ∧ currentGap info = 4)) ∧
    (∀ a b : ℤ, a < b →
      pairFreqAfter rw ds [a, b] =
        (ds.filter (fun d => decide (a ∈ d.numbers ∧ b ∈ d.numbers))).length) := by
  have hsome : (analyzeData rw ds).isSome := by
    apply analyzeLoop_isSome rw ds 0 initState hval
    · intro k hk
      simp [initState, hk]
    · intro k hk
      simp [initState, hk]
  obtain ⟨st, hst⟩ := Option.isSome_iff_exists.mp hsome
  constructor
  · intro m h1 h48
    have hminit : initState.mainNumbers m = some (initInfo m) := by
      simp [initState, h1, h48]
    obtain ⟨info, hi, hview⟩ :=
      analyzeLoop_gapView rw ds 0 initState st hst m (initInfo m) hminit
    rw [show gapView (initInfo m) = ((0 : ℕ), ([] : List ℤ), (-1 : ℤ))
      from rfl] at hview
    refine ⟨info, ?_, ?_, ?_⟩
    · simp only [mainInfoAfter, hst]
      exact hi
    · rw [show info.totalFrequency = (gapView info).1 from rfl, hview,
        foldl_stepView_fst, occEvents_length m ds hnd 0]
      simp
    · intro hocc
      rw [hocc] at hview
      have hv : List.foldl stepView ((0 : ℕ), ([] : List ℤ), (-1 : ℤ))
          [2, 4] = (2, [2], 4) := by decide
      rw [hv] at hview
      exact ⟨congrArg (fun v => v.2.1) hview,
        congrArg (fun v => v.2.2) hview⟩
  · intro a b hab
    have h0 := analyzeLoop_patFreq rw ds 0 initState st hst [a, b]
    simp only [pairFreqAfter, hst]
    rw [h0, pairOcc_eq_filter hab ds hnd,
      show patFreq initState.pairPatterns [a, b] = 0 from rfl]
    omega

/-- **C7** (witness).  The claim theorem applied to the reference
fixture: number 23 appears in 3 of 5 drawings (`totalFrequency = 3`),
number 5 appears exactly at indices 2 and 4 (`gapsSinceDrawn = [2]`,
`currentGap = 4`), and pair 5–23 co-occurs twice (frequency 2). -/
theorem analyzeData_bookkeeping_witness :
    (∃ info, mainInfoAfter 50 fixtureDrawings 23 = some info ∧
      info.totalFrequency = 3) ∧
    (∃ info, mainInfoAfter 50 fixtureDrawings 5 = some info ∧
      info.gapsSinceDrawn = [2] ∧ currentGap info = 4) ∧
    pairFreqAfter 50 fixtureDrawings [5, 23] = 2 := by
  have h := analyzeData_bookkeeping 50 fixtureDrawings (by decide) (by decide)
  refine ⟨?_, ?_, ?_⟩
  · obtain ⟨info, hi, hf, _⟩ := h.1 23 (by norm_num) (by norm_num)
    exact ⟨info, hi, by rw [hf]; decide⟩
  · obtain ⟨info, hi, _, hg⟩ := h.1 5 (by norm_num) (by norm_num)
    exact ⟨info, hi, hg (by decide)⟩
  · rw [h.2 5 23 (by norm_num)]
    decide

/-! ### Calendar arithmetic

`time.Time` calendar accessors (`Year`, `YearDay`, `Weekday`, `Month`,
`Day`) over the Unix-seconds representation, via the standard
civil-calendar ↔ epoch-day conversion (all divisions are floor
divisions on non-negative operands). -/

/-- The Unix day number of a timestamp (`Format("2006-01-02")` keys two
timestamps equally iff they have equal day numbers). -/
def dayKey (t : ℚ) : ℤ := ⌊t / 86400⌋

/-- Gregorian (year, month, day) of an epoch day number. -/
def civilFromDays (z0 : ℤ) : ℤ × ℤ × ℤ :=
  let z := z0 + 719468
  let era := Int.fdiv z 146097
  let doe := z - era * 146097
  let yoe := Int.fdiv (doe - Int.fdiv doe 1460 + Int.fdiv doe 36524 -
    Int.fdiv doe 146096) 365
  let y := yoe + era * 400
  let doy := doe - (365 * yoe + Int.fdiv yoe 4 - Int.fdiv yoe 100)
  let mp := Int.fdiv (5 * doy + 2) 153
  let d := doy - Int.fdiv (153 * mp + 2) 5 + 1
  let m := mp + (if mp < 10 then 3 else -9)
  (y + (if m ≤ 2 then 1 else 0), m, d)

/-- Epoch day number of a Gregorian date. -/
def daysFromCivil (y0 m d : ℤ) : ℤ :=
  let y := if m ≤ 2 then y0 - 1 else y0
  let era := Int.fdiv y 400
  let yoe := y - era * 400
  let mp := if 2 < m then m - 3 else m + 9
  let doy := Int.fdiv (153 * mp + 2) 5 + d - 1
  let doe := yoe * 365 + Int.fdiv yoe 4 - Int.fdiv yoe 100 + doy
  era * 146097 + doe - 719468

/-- `date.Year()`. -/
def yearOf (t : ℚ) : ℤ := (civilFromDays (dayKey t)).1

/-- `date.YearDay()` (1-based day of year). -/
def yearDay (t : ℚ) : ℤ :=
  dayKey t - daysFromCivil (yearOf t) 1 1 + 1

/-- `date.Weekday().String()` (epoch day 0 = 1970-01-01 was a
Thursday). -/
def weekdayIndex (t : ℚ) : ℤ := (dayKey t + 4) % 7

/-- The `time.Weekday` names, index 0 = Sunday. -/
def weekdayName (t : ℚ) : String :=
  [ "Sunday", "Monday", "Tuesday", "Wednesday", "Thursday", "Friday",
    "Saturday" ].getD (weekdayIndex t).toNat ""

/-- `getZodiacSign`: the per-month threshold table of the source. -/
def zodiacFromMonthDay (month day : ℤ) : String :=
  if month = 1 then (if day < 20 then "Capricorn" else "Aquarius")
  else if month = 2 then (if day < 19 then "Aquarius" else "Pisces")
  else if month = 3 then (if day < 21 then "Pisces" else "Aries")
  else if month = 4 then (if day < 20 then "Aries" else "Taurus")
  else if month = 5 then (if day < 21 then "Taurus" else "Gemini")
  else if month = 6 then (if day < 21 then "Gemini" else "Cancer")
  else if month = 7 then (if day < 23 then "Cancer" else "Leo")
  else if month = 8 then (if day < 23 then "Leo" else "Virgo")
  else if month = 9 then (if day < 23 then "Virgo" else "Libra")
  else if month = 10 then (if day < 23 then "Libra" else "Scorpio")
  else if month = 11 then (if day < 22 then "Scorpio" else "Sagittarius")
  else if month = 12 then (if day < 22 then "Sagittarius" else "Capricorn")
  else "Unknown"

/-- `getZodiacSign` on a timestamp. -/
def getZodiacSign (t : ℚ) : String :=
  zodiacFromMonthDay (civilFromDays (dayKey t)).2.1
    (civilFromDays (dayKey t)).2.2

/-- `getSeasonalPhase` (Northern-hemisphere boundaries of the source). -/
def getSeasonalPhase (t : ℚ) : String :=
  let month := (civilFromDays (dayKey t)).2.1
  let day := (civilFromDays (dayKey t)).2.2
  if (month = 3 ∧ 20 ≤ day) ∨ month = 4 ∨ month = 5 ∨
      (month = 6 ∧ day < 21) then "Spring"
  else if (month = 6 ∧ 21 ≤ day) ∨ month = 7 ∨ month = 8 ∨
      (month = 9 ∧ day < 23) then "Summer"
  else if (month = 9 ∧ 23 ≤ day) ∨ month = 10 ∨ month = 11 ∨
      (month = 12 ∧ day < 21) then "Autumn"
  else "Winter"

/-! ### Cosmic data and enrichment (`cosmic_correlator.go`) -/

/-- `SolarData` (mock solar-activity record). -/
structure SolarData where
  solarWindSpeed : ℝ
  solarWindDensity : ℝ
  bzComponent : ℝ
  protonFlux : ℝ
  electronFlux : ℝ
  f107Index : ℝ

/-- `WeatherData` (mock weather record; `condition` is never set by the
generator and keeps its zero value). -/
structure WeatherData where
  temperature : ℝ
  pressure : ℝ
  humidity : ℝ
  windSpeed : ℝ
  precipitation : ℝ
  cloudCover : ℝ
  condition : String

/-- `CosmicData`.  `moonPhase` is carried as an exact rational since every
program write to it comes from the rational-valued moon-phase
calculation. -/
structure CosmicData where
  date : ℚ
  moonPhase : ℚ
  moonPhaseName : String
  moonIllumination : ℝ
  solarActivity : Option SolarData
  planetaryPositions : Option PlanetaryPositions
  zodiacSign : String
  dayOfWeek : String
  seasonalPhase : String
  weatherData : Option WeatherData
  geomagneticIndex : ℝ

/-- The `&CosmicData{Date: d}` zero-value record. -/
def emptyCosmic (t : ℚ) : CosmicData :=
  ⟨t, 0, "", 0, none, none, "", "", "", none, 0⟩

/-- `addMockDataForDemo`: the solar part. -/
noncomputable def mockSolar (t : ℚ) : SolarData where
  solarWindSpeed := 350 + Real.sin ((t : ℝ) / 86400) * 50
  solarWindDensity := 5 + Real.cos ((t : ℝ) / 86400) * 2
  bzComponent := -2 + Real.sin ((t : ℝ) / 172800) * 5
  protonFlux := 1 / 10 + |Real.sin ((t : ℝ) / 259200)| * 10
  electronFlux := 1000 + Real.sin ((t : ℝ) / 345600) * 500
  f107Index := 70 + Real.sin ((t : ℝ) / 432000) * 30

/-- `addMockDataForDemo`: the weather part. -/
noncomputable def mockWeather (t : ℚ) : WeatherData where
  temperature := 15 + 10 * Real.sin (2 * Real.pi * (yearDay t : ℝ) / 365) +
    Real.sin ((t : ℝ) / 86400) * 5
  pressure := 1013 + Real.sin ((t : ℝ) / 172800) * 10
  humidity := 60 + Real.sin ((t : ℝ) / 86400) * 20
  windSpeed := 5 + |Real.sin ((t : ℝ) / 86400)| * 10
  precipitation := max 0 (Real.sin ((t : ℝ) / 259200) * 10)
  cloudCover := 50 + Real.sin ((t : ℝ) / 172800) * 40
  condition := ""

/-- `calculateAstronomicalData`: day of week, zodiac, season and
planetary positions from the stored date. -/
def calculateAstronomicalData (c : CosmicData) : CosmicData :=
  { c with
    dayOfWeek := weekdayName c.date
    zodiacSign := getZodiacSign c.date
    seasonalPhase := getSeasonalPhase c.date
    planetaryPositions := some (calculatePlanetaryPositions c.date) }

/-- `addMockDataForDemo` on a cosmic record. -/
noncomputable def addMockDataForDemo (c : CosmicData) : CosmicData :=
  { c with
    solarActivity := some (mockSolar c.date)
    weatherData := some (mockWeather c.date)
    geomagneticIndex := 2 + |Real.sin ((c.date : ℝ) / 432000)| * 5 }

/-- `fetchMoonPhaseData`: walk every day of the year (inclusive), create
the entry if missing, and write phase, illumination and phase name.
(The function receives but never consults the context, and always
returns `nil`.) -/
noncomputable def fetchMoonPhaseData (cd : ℤ → Option CosmicData)
    (year : ℤ) : ℤ → Option CosmicData :=
  let startD := daysFromCivil year 1 1
  let endD := daysFromCivil year 12 31
  (List.range (endD - startD + 1).toNat).foldl
    (fun m i =>
      let z := startD + (i : ℤ)
      let t : ℚ := (z : ℚ) * 86400
      let base := match m z with
        | some c => c
        | none => emptyCosmic t
      fun k => if k = z then
          some { base with
            moonPhase := calculateMoonPhasePhase t
            moonIllumination := calculateMoonPhaseIllum t
            moonPhaseName := getMoonPhaseName (calculateMoonPhasePhase t) }
        else m k)
    cd

/-- The result outcome of an enrichment pass: the distinct "aborted"
outcome the specification calls for versus ordinary completion.  The
source's `EnrichWithCosmicData` returns `nil` unconditionally, i.e.
`completed`. -/
inductive EnrichOutcome where
  | completed
  | aborted
  deriving DecidableEq, Repr

/-- `EnrichWithCosmicData`.  `cancelled` models whether the passed
`context.Context` is already cancelled; the source accepts the context
but never checks it (`fetchMoonPhaseData` discards it), so the parameter
is unused: moon data is fetched for every drawing year, every drawing
date is enriched, and the function returns `nil`. -/
noncomputable def EnrichWithCosmicData (cancelled : Bool)
    (cache : ℤ → Option CosmicData) (ds : List Drawing) :
    (ℤ → Option CosmicData) × EnrichOutcome :=
  let years := (ds.map (fun d => yearOf d.date)).dedup
  let cd1 := years.foldl fetchMoonPhaseData cache
  let cd2 := ds.foldl
    (fun m d =>
      let z := dayKey d.date
      let base := match m z with
        | some c => c
        | none => emptyCosmic d.date
      fun k => if k = z then
          some (addMockDataForDemo (calculateAstronomicalData base))
        else m k)
    cd1
  (cd2, EnrichOutcome.completed)

/-- **C4** (amended).  `EnrichWithCosmicData` accepts a cancellation
signal but never checks it: the enrichment result is identical whether or
not the signal is set, and the outcome is always ordinary completion
(`nil`), never the distinct aborted outcome.  Previously computed entries
are trivially left valid, because no cancellation path exists at all. -/
theorem EnrichWithCosmicData_ignores_cancellation :
    ∀ (cancelled : Bool) (cache : ℤ → Option CosmicData)
      (ds : List Drawing),
      EnrichWithCosmicData cancelled cache ds =
        EnrichWithCosmicData false cache ds ∧
      (EnrichWithCosmicData cancelled cache ds).2 =
        EnrichOutcome.completed :=
  fun _ _ _ => ⟨rfl, rfl⟩

set_option maxRecDepth 10000 in
/-- **C4** (counterexample).  With the cancellation signal already set
before the run, enrichment of a one-drawing list still runs to
completion: the outcome is `completed`, not `aborted`, and the drawing's
date is enriched anyway (the cache entry for its day exists
afterwards) — so the pass neither checks the signal once per date nor
stops or returns an aborted outcome. -/
theorem EnrichWithCosmicData_cancelled_still_enriches :
    (EnrichWithCosmicData true (fun _ => none)
        [⟨0, [1, 2, 3, 4, 5], 1⟩]).2 ≠ EnrichOutcome.aborted ∧
    ((EnrichWithCosmicData true (fun _ => none)
        [⟨0, [1, 2, 3, 4, 5], 1⟩]).1 0).isSome := by
  constructor
  · rw [show (EnrichWithCosmicData true (fun _ => none)
        [⟨0, [1, 2, 3, 4, 5], 1⟩]).2 = EnrichOutcome.completed from rfl]
    intro h
    exact EnrichOutcome.noConfusion h
  · unfold EnrichWithCosmicData
    simp only [List.map_cons, List.map_nil, List.foldl_cons, List.foldl_nil]
    rw [if_pos (show (0 : ℤ) = dayKey 0 by norm_num [dayKey])]
    rfl

/-! ### Correlation analysis (`AnalyzeCorrelations`) -/

/-- `CorrelationResult`.  The `Interpretation` string is rendering-layer
text (number formatting) and is not modelled; every other field is. -/
structure CorrelationResult where
  factor : String
  subFactor : String
  correlation : GFloat
  pValue : GFloat
  sampleSize : ℕ
  significance : String

/-- The paired (moon phase, average drawn number) series collected by
`analyzeMoonPhaseCorrelations` over drawings with cached cosmic data. -/
noncomputable def moonSeries (cd : ℤ → Option CosmicData)
    (ds : List Drawing) : List (GFloat × GFloat) :=
  ds.filterMap (fun d =>
    match cd (dayKey d.date) with
    | some c => some (GFloat.fin (c.moonPhase : ℝ),
        GFloat.fin ((d.numbers.sum : ℝ) / (d.numbers.length : ℝ)))
    | none => none)

/-- The moon-phase / average-number Pearson result. -/
noncomputable def analyzeMoonPhaseMain (cd : ℤ → Option CosmicData)
    (ds : List Drawing) : CorrelationResult :=
  let xs := (moonSeries cd ds).map Prod.fst
  let ys := (moonSeries cd ds).map Prod.snd
  let res := calculatePearsonCorrelation xs ys
  { factor := "Moon Phase"
    subFactor := "Average Number Value"
    correlation := res.1
    pValue := res.2
    sampleSize := xs.length
    significance := getSignificanceLevel res.2 }

/-- The four tracked phase-group names.  (The Go map iteration order over
the groups is arbitrary; a fixed order is used here, which does not
affect which results are appended.) -/
def moonPhaseGroupNames : List String :=
  ["New Moon", "Full Moon", "First Quarter", "Last Quarter"]

/-- The numbers grouped under one moon-phase name. -/
def phaseGroup (cd : ℤ → Option CosmicData) (ds : List Drawing)
    (phase : String) : List ℤ :=
  ds.foldl (fun acc d =>
    match cd (dayKey d.date) with
    | some c => if c.moonPhaseName = phase then acc ++ d.numbers else acc
    | none => acc) []

/-- The maximum per-number frequency within a group (the `maxFreq`
computed from the group's frequency map). -/
def maxFreqOf (nums : List ℤ) : ℕ :=
  (nums.map (fun n => nums.count n)).foldl max 0

/-- `analyzeSpecificMoonPhases`: one result per non-empty phase group,
with the hard-coded demo p-value 0.05 and significance `"Moderate"`. -/
noncomputable def analyzeSpecificMoonPhases (cd : ℤ → Option CosmicData)
    (ds : List Drawing) : List CorrelationResult :=
  moonPhaseGroupNames.filterMap (fun phase =>
    let numbers := phaseGroup cd ds phase
    if 0 < numbers.length then
      some { factor := "Moon Phase"
             subFactor := phase ++ " Lucky Numbers"
             correlation := GFloat.fin
               ((maxFreqOf numbers : ℝ) / (numbers.length : ℝ))
             pValue := GFloat.fin (5 / 100)
             sampleSize := numbers.length
             significance := "Moderate" }
    else none)

/-- The paired (solar wind speed, count of numbers > 30) series. -/
noncomputable def solarSeries (cd : ℤ → Option CosmicData)
    (ds : List Drawing) : List (GFloat × GFloat) :=
  ds.filterMap (fun d =>
    match cd (dayKey d.date) with
    | some c =>
        match c.solarActivity with
        | some s => some (GFloat.fin s.solarWindSpeed,
            GFloat.fin (((d.numbers.filter (fun n => 30 < n)).length : ℝ)))
        | none => none
    | none => none)

/-- The solar Pearson result. -/
noncomputable def analyzeSolarActivityCorrelations
    (cd : ℤ → Option CosmicData) (ds : List Drawing) : CorrelationResult :=
  let xs := (solarSeries cd ds).map Prod.fst
  let ys := (solarSeries cd ds).map Prod.snd
  let res := calculatePearsonCorrelation xs ys
  { factor := "Solar Activity"
    subFactor := "Solar Wind vs High Numbers"
    correlation := res.1
    pValue := res.2
    sampleSize := xs.length
    significance := getSignificanceLevel res.2 }

/-- The paired (temperature, even ratio) series. -/
noncomputable def weatherSeries (cd : ℤ → Option CosmicData)
    (ds : List Drawing) : List (GFloat × GFloat) :=
  ds.filterMap (fun d =>
    match cd (dayKey d.date) with
    | some c =>
        match c.weatherData with
        | some w => some (GFloat.fin w.temperature,
            GFloat.fin (((d.numbers.filter
                (fun n => goIntMod n 2 = 0)).length : ℝ) /
              (d.numbers.length : ℝ)))
        | none => none
    | none => none)

/-- The weather Pearson result. -/
noncomputable def analyzeWeatherCorrelations
    (cd : ℤ → Option CosmicData) (ds : List Drawing) : CorrelationResult :=
  let xs := (weatherSeries cd ds).map Prod.fst
  let ys := (weatherSeries cd ds).map Prod.snd
  let res := calculatePearsonCorrelation xs ys
  { factor := "Weather"
    subFactor := "Temperature vs Even/Odd Ratio"
    correlation := res.1
    pValue := res.2
    sampleSize := xs.length
    significance := getSignificanceLevel res.2 }

/-- The seven day names iterated by `analyzeTemporalCorrelations` (fixed
order standing in for the arbitrary Go map order; the season map is also
collected by the source but never reported). -/
def dayNames : List String :=
  ["Monday", "Tuesday", "Wednesday", "Thursday", "Friday", "Saturday",
   "Sunday"]

/-- All numbers drawn on a given weekday name. -/
def dayGroup (cd : ℤ → Option CosmicData) (ds : List Drawing)
    (day : String) : List ℤ :=
  ds.foldl (fun acc d =>
    match cd (dayKey d.date) with
    | some c => if c.dayOfWeek = day then acc ++ d.numbers else acc
    | none => acc) []

/-- `analyzeTemporalCorrelations`: one result per weekday whose maximum
frequency exceeds 10, with the hard-coded p-value 0.1 and significance
`"Low"`. -/
noncomputable def analyzeTemporalCorrelations
    (cd : ℤ → Option CosmicData) (ds : List Drawing) :
    List CorrelationResult :=
  dayNames.filterMap (fun day =>
    let nums := dayGroup cd ds day
    if 10 < maxFreqOf nums then
      some { factor := "Temporal"
             subFactor := day ++ " Lucky Number"
             correlation := GFloat.fin
               ((maxFreqOf nums : ℝ) / (nums.length : ℝ))
             pValue := GFloat.fin (1 / 10)
             sampleSize := nums.length
             significance := "Low" }
    else none)

/-- The (Mercury angle, high-number count) pairs of drawings with cached
planetary positions. -/
def planetarySeries (cd : ℤ → Option CosmicData) (ds : List Drawing) :
    List (ℚ × ℕ) :=
  ds.filterMap (fun d =>
    match cd (dayKey d.date) with
    | some c =>
        match c.planetaryPositions with
        | some pp => some (pp.mercury,
            (d.numbers.filter (fun n => 30 < n)).length)
        | none => none
    | none => none)

/-- The simplified retrograde test `int(mercuryPos) % 120 < 20` (Go
float-to-int truncation and truncated `%`). -/
def isRetrograde (mercuryPos : ℚ) : Prop :=
  goIntMod (ratTrunc mercuryPos) 120 < 20

instance : DecidablePred isRetrograde := fun p =>
  inferInstanceAs (Decidable (goIntMod (ratTrunc p) 120 < 20))

/-- `analyzePlanetaryCorrelations`: the Mercury-retrograde comparison,
reported only when both groups are non-empty, with the hard-coded
p-value 0.15 and significance `"Low"`. -/
noncomputable def analyzePlanetaryCorrelations
    (cd : ℤ → Option CosmicData) (ds : List Drawing) :
    List CorrelationResult :=
  let rel := planetarySeries cd ds
  let retro := rel.filter (fun p => decide (isRetrograde p.1))
  let normal := rel.filter (fun p => decide (¬ isRetrograde p.1))
  if 0 < retro.length ∧ 0 < normal.length then
    [{ factor := "Planetary"
       subFactor := "Mercury Retrograde Effect"
       correlation := GFloat.fin
         ((((retro.map Prod.snd).sum : ℝ) / (retro.length : ℝ)) -
           (((normal.map Prod.snd).sum : ℝ) / (normal.length : ℝ)))
       pValue := GFloat.fin (15 / 100)
       sampleSize := retro.length + normal.length
       significance := "Low" }]
  else []

/-- `AnalyzeCorrelations`: the freshly rebuilt result collection, in
source append order. -/
noncomputable def analyzeCorrelations (cd : ℤ → Option CosmicData)
    (ds : List Drawing) : List CorrelationResult :=
  [analyzeMoonPhaseMain cd ds] ++ analyzeSpecificMoonPhases cd ds ++
    [analyzeSolarActivityCorrelations cd ds] ++
    [analyzeWeatherCorrelations cd ds] ++
    analyzeTemporalCorrelations cd ds ++
    analyzePlanetaryCorrelations cd ds

theorem mem_analyzeSpecificMoonPhases
    {cd : ℤ → Option CosmicData} {ds : List Drawing}
    {r : CorrelationResult} (hr : r ∈ analyzeSpecificMoonPhases cd ds) :
    r.pValue = GFloat.fin (5 / 100) ∧ r.significance = "Moderate" := by
  obtain ⟨phase, _, hsome⟩ := List.mem_filterMap.mp hr
  simp only [] at hsome
  split_ifs at hsome with h
  obtain rfl := (Option.some.injEq _ _).mp hsome
  exact ⟨rfl, rfl⟩

theorem mem_analyzeTemporalCorrelations
    {cd : ℤ → Option CosmicData} {ds : List Drawing}
    {r : CorrelationResult} (hr : r ∈ analyzeTemporalCorrelations cd ds) :
    r.pValue = GFloat.fin (1 / 10) ∧ r.significance = "Low" := by
  obtain ⟨day, _, hsome⟩ := List.mem_filterMap.mp hr
  simp only [] at hsome
  split_ifs at hsome with h
  obtain rfl := (Option.some.injEq _ _).mp hsome
  exact ⟨rfl, rfl⟩

theorem mem_analyzePlanetaryCorrelations
    {cd : ℤ → Option CosmicData} {ds : List Drawing}
    {r : CorrelationResult} (hr : r ∈ analyzePlanetaryCorrelations cd ds) :
    r.pValue = GFloat.fin (15 / 100) ∧ r.significance = "Low" := by
  simp only [analyzePlanetaryCorrelations] at hr
  split_ifs at hr with h
  · obtain rfl := List.mem_singleton.mp hr
    exact ⟨rfl, rfl⟩
  · exact absurd hr (List.not_mem_nil r)

/-- **C3** (amended).  Every result of a full `AnalyzeCorrelations` run
either carries `significance = getSignificanceLevel(pValue)` (the three
continuous Pearson analyses) or is one of the hard-coded demo pairs
`(0.05, "Moderate")`, `(0.1, "Low")`, `(0.15, "Low")` appended by the
specific-moon-phase, temporal and planetary analyses — each of which
violates the threshold mapping (`getSignificanceLevel` maps 0.05 to
`"Low"`, and 0.1 and 0.15 to `"None"`). -/
theorem analyzeCorrelations_significance_labels
    (cd : ℤ → Option CosmicData) (ds : List Drawing) :
    List.Forall (fun r : CorrelationResult =>
        r.significance = getSignificanceLevel r.pValue ∨
          (r.pValue, r.significance) ∈
            ([(GFloat.fin (5 / 100), "Moderate"),
              (GFloat.fin (1 / 10), "Low"),
              (GFloat.fin (15 / 100), "Low")] : List (GFloat × String)))
      (analyzeCorrelations cd ds) := by
  rw [List.forall_iff_forall_mem]
  intro r hr
  simp only [analyzeCorrelations, List.mem_append,
    List.mem_singleton] at hr
  rcases hr with ((((h | h) | h) | h) | h) | h
  · subst h
    exact Or.inl rfl
  · obtain ⟨hp, hs⟩ := mem_analyzeSpecificMoonPhases h
    exact Or.inr (by rw [hp, hs]; simp)
  · subst h
    exact Or.inl rfl
  · subst h
    exact Or.inl rfl
  · obtain ⟨hp, hs⟩ := mem_analyzeTemporalCorrelations h
    exact Or.inr (by rw [hp, hs]; simp)
  · obtain ⟨hp, hs⟩ := mem_analyzePlanetaryCorrelations h
    exact Or.inr (by rw [hp, hs]; simp)

theorem getSignificanceLevel_at_demo_pvalue :
    getSignificanceLevel (GFloat.fin (5 / 100)) = "Low" := by
  unfold getSignificanceLevel
  rw [show GFloat.blt (GFloat.fin (5 / 100)) (GFloat.fin (1 / 100)) = false
      by simp [GFloat.blt]; norm_num,
    show GFloat.blt (GFloat.fin (5 / 100)) (GFloat.fin (5 / 100)) = false
      by simp [GFloat.blt],
    show GFloat.blt (GFloat.fin (5 / 100)) (GFloat.fin (1 / 10)) = true
      by simp [GFloat.blt]; norm_num]
  rfl

/-- The drawing of the C3 counterexample run: 2024-01-25, a date whose
computed moon phase falls in the "Full Moon" bucket. -/
def cexDrawing : Drawing := ⟨1706140800, [2, 11, 23, 34, 41], 3⟩

/-- The engine's cosmic cache for that run: the entry for day 19747
(2024-01-25), carrying exactly the moon phase, phase name and
astronomical fields the enrichment pass computes for that date. -/
noncomputable def cexCosmic : ℤ → Option CosmicData := fun k =>
  if k = 19747 then some
    { date := 1706140800
      moonPhase := calculateMoonPhasePhase 1706140800
      moonPhaseName := "Full Moon"
      moonIllumination := calculateMoonPhaseIllum 1706140800
      solarActivity := none
      planetaryPositions := none
      zodiacSign := getZodiacSign 1706140800
      dayOfWeek := weekdayName 1706140800
      seasonalPhase := getSeasonalPhase 1706140800
      weatherData := none
      geomagneticIndex := 0 }
  else none

theorem moonPhaseName_at_cex :
    getMoonPhaseName (calculateMoonPhasePhase 1706140800) = "Full Moon" := by
  have hfloor : ⌊moonCycles 1706140800⌋ = 297 := by
    norm_num [moonCycles, refNewMoonUnix, synodicMonth]
  have hphase : calculateMoonPhasePhase 1706140800 =
      7905816250 / 26577531 - 297 := by
    rw [calculateMoonPhasePhase, hfloor]
    norm_num [moonCycles, refNewMoonUnix, synodicMonth]
  rw [getMoonPhaseName, hphase]
  norm_num

/-- The violating result appended by the specific-moon-phase analysis in
the counterexample run. -/
noncomputable def cexResult : CorrelationResult :=
  { factor := "Moon Phase"
    subFactor := "Full Moon Lucky Numbers"
    correlation := GFloat.fin (1 / 5)
    pValue := GFloat.fin (5 / 100)
    sampleSize := 5
    significance := "Moderate" }

/-- **C3** (counterexample).  In the full `AnalyzeCorrelations` run over
one drawing dated 2024-01-25 (a computed "Full Moon" date), the
specific-moon-phase analysis appends a result whose significance label
`"Moderate"` differs from the threshold mapping of its own p-value 0.05
(which maps to `"Low"`). -/
theorem analyzeCorrelations_label_mismatch :
    getMoonPhaseName (calculateMoonPhasePhase 1706140800) = "Full Moon" ∧
    ∃ r ∈ analyzeCorrelations cexCosmic [cexDrawing],
      r.significance = "Moderate" ∧ r.pValue = GFloat.fin (5 / 100) ∧
      getSignificanceLevel r.pValue = "Low" ∧
      r.significance ≠ getSignificanceLevel r.pValue := by
  have hkey : dayKey ((1706140800 : ℚ)) = 19747 := by norm_num [dayKey]
  have hlookup : cexCosmic (dayKey cexDrawing.date) = cexCosmic 19747 := by
    rw [show cexDrawing.date = (1706140800 : ℚ) from rfl, hkey]
  have hfull : phaseGroup cexCosmic [cexDrawing] "Full Moon" =
      [2, 11, 23, 34, 41] := by
    simp only [phaseGroup, List.foldl_cons, List.foldl_nil, hlookup]
    simp [cexCosmic, cexDrawing]
  have hother : ∀ name : String, name ≠ "Full Moon" →
      phaseGroup cexCosmic [cexDrawing] name = [] := by
    intro name hname
    simp only [phaseGroup, List.foldl_cons, List.foldl_nil, hlookup]
    simp [cexCosmic, cexDrawing]
    exact fun h => hname h.symm
  have hspec : analyzeSpecificMoonPhases cexCosmic [cexDrawing] =
      [cexResult] := by
    simp only [analyzeSpecificMoonPhases, moonPhaseGroupNames,
      List.filterMap_cons, List.filterMap_nil]
    rw [hfull, hother "New Moon" (by decide),
      hother "First Quarter" (by decide), hother "Last Quarter" (by decide)]
    norm_num [cexResult]
    constructor
    · decide
    · norm_num [maxFreqOf]
  refine ⟨moonPhaseName_at_cex, cexResult, ?_, rfl, rfl,
    getSignificanceLevel_at_demo_pvalue, ?_⟩
  · simp only [analyzeCorrelations, List.mem_append, hspec]
    exact Or.inl (Or.inl (Or.inl (Or.inl (Or.inr (List.mem_singleton.mpr
      rfl)))))
  · show "Moderate" ≠ getSignificanceLevel (GFloat.fin (5 / 100))
    rw [getSignificanceLevel_at_demo_pvalue]
    decide

/-! ### Recommendation scoring and the cosmic prediction (C8) -/

/-- A scored candidate number.  (The cosmetic `Factors` string list of
the source, which only feeds report rendering, is not modelled.) -/
structure ScoredNumber where
  number : ℤ
  score : GFloat

/-- The `pattern` strategy's pair bonus: summing `pattern.Frequency` once
per member equal to `num` over every pair pattern.  The source iterates
the pair map's entries; for the valid drawings `analyzeCombinations`
processes, every created key is a sorted pair of numbers in `[1, 48]`,
which is the key domain summed here. -/
def pairBonus (st : AnalyzerState) (num : ℤ) : ℕ :=
  ∑ q ∈ Finset.Icc (1 : ℤ) 48 ×ˢ Finset.Icc (1 : ℤ) 48,
    match st.pairPatterns [q.1, q.2] with
    | some pat => pat.numbers.count num * pat.frequency
    | none => 0

/-- The per-number score of `scoreNumbersByStrategy` (`n` is the number
of drawings).  Unknown strategy names leave the score at its initial
`0.0`.  A zero-drawing analyzer makes the balanced `freqScore` a `0/0 =
NaN`. -/
noncomputable def scoreOf (st : AnalyzerState) (n : ℕ) (strategy : String)
    (info : NumberInfo) : GFloat :=
  if strategy = "balanced" then
    let freqScore := GFloat.mul
      (GFloat.div (.fin info.totalFrequency) (.fin n)) (.fin 100)
    let s1 := GFloat.add (.fin 0) freqScore
    let s2 := if 3 < info.recentFrequency then
        GFloat.add s1 (.fin (info.recentFrequency * 10)) else s1
    if 0 < averageGap info ∧
        averageGap info * (13 / 10) < (currentGap info : ℚ) then
      GFloat.add s2 (GFloat.mul
        (.fin ((currentGap info : ℝ) / (averageGap info : ℝ))) (.fin 20))
    else s2
  else if strategy = "hot" then .fin (info.recentFrequency * 100)
  else if strategy = "overdue" then
    if 0 < averageGap info then
      .fin (((currentGap info : ℝ) / (averageGap info : ℝ)) * 100)
    else .fin 0
  else if strategy = "pattern" then .fin (pairBonus st info.number)
  else if strategy = "frequency" then .fin info.totalFrequency
  else .fin 0

/-- One scored entry per visited map key.  The iteration only visits
keys present in the map, so the `none` fallback is unreachable for the
48 initialised keys. -/
noncomputable def scoreEntry (st : AnalyzerState) (n : ℕ)
    (strategy : String) (num : ℤ) : ScoredNumber :=
  match st.mainNumbers num with
  | some info => ⟨num, scoreOf st n strategy info⟩
  | none => ⟨num, .fin 0⟩

/-- `scoreNumbersByStrategy` before its final sort, with `order` the
(arbitrary) map iteration order over the 48 keys.  The closing
`sort.Slice` call reorders this list by descending score; since `NaN`
scores make the comparator non-transitive, its postcondition is only
that the sorted output is a permutation of this list, which is how the
theorems below quantify over it. -/
noncomputable def scoreNumbersByStrategy (st : AnalyzerState) (n : ℕ)
    (strategy : String) (order : List ℤ) : List ScoredNumber :=
  order.map (scoreEntry st n strategy)

/-- The 48 main-number keys initialised by `NewAnalyzer`. -/
def mainKeys : List ℤ := (List.range 48).map (fun i => (i : ℤ) + 1)

/-- The selection loop of `generateSetByStrategy`: walk the ranked list,
collecting the first 5 pairwise-distinct numbers. -/
def selectTop5 (ranked : List ScoredNumber) : List ℤ :=
  ranked.foldl (fun acc sn =>
    if sn.number ∉ acc ∧ acc.length < 5 then acc ++ [sn.number] else acc) []

/-- `generateSetByStrategy`'s number set: select 5 distinct from the
ranked scored list, then `sort.Ints`. -/
def generateSetNumbers (ranked : List ScoredNumber) : List ℤ :=
  sortInts (selectTop5 ranked)

/-- Truncation toward zero of a real, Go's float-to-int conversion. -/
noncomputable def realTrunc (x : ℝ) : ℤ :=
  if 0 ≤ x then ⌊x⌋ else ⌈x⌉

/-- The collision-repair loop `num = (num % 48) + 1` of
`PredictBasedOnCosmicConditions`, as a fueled loop; fuel 48 is proved
sufficient below (the cyclic successor visits all 48 values and fewer
than 48 are used). -/
def probe : ℕ → List ℤ → ℤ → ℤ
  | 0, _, num => num
  | fuel + 1, used, num =>
      if num ∈ used then probe fuel used (goIntMod num 48 + 1) else num

/-- The `Ensure unique numbers` pass over the five raw picks. -/
def repairCollisions (nums : List ℤ) : List ℤ :=
  nums.foldl (fun acc num => acc ++ [probe 48 acc num]) []

/-- `PredictBasedOnCosmicConditions` as a function of today's cosmic
record (cached or freshly computed — both paths produce the same record
shape) and today's weekday index. -/
noncomputable def PredictBasedOnCosmicConditions (cosmic : CosmicData)
    (todayWeekday : ℤ) : List ℤ :=
  let n0 := goIntMod (ratTrunc (cosmic.moonPhase * 48)) 48 + 1
  let n1 := goIntMod (todayWeekday * 7) 48 + 1
  let n2 := goIntMod ((cosmic.zodiacSign.length : ℤ) * 3) 48 + 1
  let n3 := match cosmic.solarActivity with
    | some s => goIntMod (realTrunc s.f107Index) 48 + 1
    | none => 23
  let n4 := match cosmic.weatherData with
    | some w => goIntMod (realTrunc w.temperature) 48 + 1
    | none => 42
  repairCollisions [n0, n1, n2, n3, n4]

lemma scoreEntry_number (st : AnalyzerState) (n : ℕ) (strategy : String)
    (num : ℤ) : (scoreEntry st n strategy num).number = num := by
  unfold scoreEntry
  cases st.mainNumbers num <;> rfl

lemma scoreNumbers_map_number (st : AnalyzerState) (n : ℕ)
    (strategy : String) (order : List ℤ) :
    (scoreNumbersByStrategy st n strategy order).map
      (fun sn => sn.number) = order := by
  unfold scoreNumbersByStrategy
  rw [List.map_map]
  have h : ((fun sn => sn.number) ∘ scoreEntry st n strategy) =
      (id : ℤ → ℤ) := funext (fun num => scoreEntry_number st n strategy num)
  rw [h, List.map_id]

lemma selectTop5_aux (l : List ScoredNumber) :
    ∀ (acc : List ℤ), acc.Nodup → acc.length ≤ 5 →
    (l.map (fun sn => sn.number)).Nodup →
    (∀ sn ∈ l, sn.number ∉ acc) →
    (l.foldl (fun acc sn =>
      if sn.number ∉ acc ∧ acc.length < 5 then acc ++ [sn.number] else acc)
      acc).Nodup ∧
    (l.foldl (fun acc sn =>
      if sn.number ∉ acc ∧ acc.length < 5 then acc ++ [sn.number] else acc)
      acc).length = min 5 (acc.length + l.length) ∧
    ∀ m ∈ (l.foldl (fun acc sn =>
      if sn.number ∉ acc ∧ acc.length < 5 then acc ++ [sn.number] else acc)
      acc), m ∈ acc ∨ ∃ sn ∈ l, sn.number = m := by
  induction l with
  | nil =>
    intro acc hnd hlen _ _
    refine ⟨hnd, ?_, fun m hm => Or.inl hm⟩
    simpa using (min_eq_right hlen).symm
  | cons sn rest ih =>
    intro acc hnd hlen hmap hdisj
    have hsn : sn.number ∉ acc := hdisj sn (List.mem_cons_self sn rest)
    have hmaprest : (rest.map (fun t => t.number)).Nodup :=
      (List.nodup_cons.mp (by simpa using hmap)).2
    have hhead : sn.number ∉ rest.map (fun t => t.number) :=
      (List.nodup_cons.mp (by simpa using hmap)).1
    by_cases hlt : acc.length < 5
    · simp only [List.foldl_cons]
      rw [if_pos ⟨hsn, hlt⟩]
      have hnd' : (acc ++ [sn.number]).Nodup := by
        simp [List.nodup_append, hnd, hsn]
      have hlen' : (acc ++ [sn.number]).length ≤ 5 := by
        simp only [List.length_append, List.length_singleton]
        omega
      have hdisj' : ∀ t ∈ rest, t.number ∉ acc ++ [sn.number] := by
        intro t ht
        have h1 : t.number ∉ acc := hdisj t (List.mem_cons_of_mem sn ht)
        have h2 : t.number ≠ sn.number := by
          intro h
          exact hhead (h ▸ List.mem_map_of_mem (fun u => u.number) ht)
        simp [List.mem_append, h1, h2]
      obtain ⟨r1, r2, r3⟩ := ih (acc ++ [sn.number]) hnd' hlen' hmaprest hdisj'
      refine ⟨r1, ?_, ?_⟩
      · have ha : (acc ++ [sn.number]).length = acc.length + 1 := by simp
        rw [r2, ha]
        simp only [List.length_cons]
        omega
      · intro m hm
        rcases r3 m hm with hmem | ⟨t, ht, hteq⟩
        · rcases List.mem_append.mp hmem with h | h
          · exact Or.inl h
          · exact Or.inr ⟨sn, List.mem_cons_self sn rest,
              (List.mem_singleton.mp h).symm⟩
        · exact Or.inr ⟨t, List.mem_cons_of_mem sn ht, hteq⟩
    · simp only [List.foldl_cons]
      rw [if_neg (fun h => hlt h.2)]
      have hdisj' : ∀ t ∈ rest, t.number ∉ acc :=
        fun t ht => hdisj t (List.mem_cons_of_mem sn ht)
      obtain ⟨r1, r2, r3⟩ := ih acc hnd hlen hmaprest hdisj'
      refine ⟨r1, ?_, ?_⟩
      · rw [r2]
        simp only [List.length_cons]
        omega
      · intro m hm
        rcases r3 m hm with hmem | ⟨t, ht, hteq⟩
        · exact Or.inl hmem
        · exact Or.inr ⟨t, List.mem_cons_of_mem sn ht, hteq⟩

lemma mainKeys_nodup : mainKeys.Nodup := by decide

lemma mainKeys_length : mainKeys.length = 48 := by decide

lemma mainKeys_bounds : ∀ m ∈ mainKeys, 1 ≤ m ∧ m ≤ 48 := by decide

/-- The selection loop output for any ranked list whose numbers are a
permutation of the 48 keys: 5 distinct in-range numbers. -/
lemma selectTop5_spec (ranked : List ScoredNumber)
    (hperm : (ranked.map (fun sn => sn.number)).Perm mainKeys) :
    (selectTop5 ranked).Nodup ∧ (selectTop5 ranked).length = 5 ∧
    ∀ m ∈ selectTop5 ranked, 1 ≤ m ∧ m ≤ 48 := by
  have hmapnd : (ranked.map (fun sn => sn.number)).Nodup :=
    hperm.nodup_iff.mpr mainKeys_nodup
  have hlen48 : ranked.length = 48 := by
    have := hperm.length_eq
    rwa [List.length_map, mainKeys_length] at this
  obtain ⟨r1, r2, r3⟩ := selectTop5_aux ranked [] List.nodup_nil
    (by simp) hmapnd (by simp)
  refine ⟨r1, ?_, ?_⟩
  · rw [selectTop5, r2, hlen48]
    simp
  · intro m hm
    rcases r3 m hm with h | ⟨t, ht, hteq⟩
    · simp at h
    · have : m ∈ ranked.map (fun sn => sn.number) :=
        hteq ▸ List.mem_map_of_mem (fun u => u.number) ht
      exact mainKeys_bounds m (hperm.mem_iff.mp this)

/-- The cyclic successor used by the collision-repair loop. -/
def stepNum (num : ℤ) : ℤ := goIntMod num 48 + 1

lemma goIntMod_eq_emod (x : ℤ) (hx : 0 ≤ x) : goIntMod x 48 = x % 48 := by
  rw [goIntMod, Int.tdiv_eq_ediv hx (by omega), Int.emod_def]

lemma stepNum_range (num : ℤ) (h1 : 1 ≤ num) (h48 : num ≤ 48) :
    1 ≤ stepNum num ∧ stepNum num ≤ 48 := by
  rw [stepNum, goIntMod_eq_emod num (by omega)]
  omega

lemma stepNum_iterate (num : ℤ) (h1 : 1 ≤ num) (h48 : num ≤ 48) :
    ∀ k : ℕ, stepNum^[k] num = (num - 1 + k) % 48 + 1 := by
  intro k
  induction k with
  | zero =>
    simp only [Function.iterate_zero, id_eq, Nat.cast_zero, add_zero]
    omega
  | succ k ih =>
    rw [Function.iterate_succ_apply', ih, stepNum,
      goIntMod_eq_emod _ (by omega)]
    push_cast
    omega

lemma stepNum_covers (num m : ℤ) (h1 : 1 ≤ num) (h48 : num ≤ 48)
    (hm1 : 1 ≤ m) (hm48 : m ≤ 48) :
    ∃ k : ℕ, k < 48 ∧ stepNum^[k] num = m := by
  refine ⟨((m - num) % 48).toNat, ?_, ?_⟩
  · have := Int.emod_lt_of_pos (m - num) (show (0:ℤ) < 48 by omega)
    omega
  · rw [stepNum_iterate num h1 h48,
      Int.toNat_of_nonneg (Int.emod_nonneg _ (by omega))]
    omega

lemma probe_spec (fuel : ℕ) :
    ∀ (used : List ℤ) (num : ℤ), 1 ≤ num → num ≤ 48 →
    (∃ k ≤ fuel, stepNum^[k] num ∉ used) →
    probe fuel used num ∉ used ∧
    1 ≤ probe fuel used num ∧ probe fuel used num ≤ 48 := by
  induction fuel with
  | zero =>
    intro used num h1 h48 ⟨k, hk, hfree⟩
    have hk0 : k = 0 := Nat.le_zero.mp hk
    rw [hk0] at hfree
    simp only [Function.iterate_zero, id_eq] at hfree
    exact ⟨hfree, h1, h48⟩
  | succ fuel ih =>
    intro used num h1 h48 ⟨k, hk, hfree⟩
    rw [probe]
    by_cases hmem : num ∈ used
    · rw [if_pos hmem]
      have hk0 : k ≠ 0 := by
        intro h
        rw [h] at hfree
        simp only [Function.iterate_zero, id_eq] at hfree
        exact hfree hmem
      obtain ⟨k', rfl⟩ := Nat.exists_eq_succ_of_ne_zero hk0
      obtain ⟨hs1, hs2⟩ := stepNum_range num h1 h48
      have hfree' : stepNum^[k'] (stepNum num) ∉ used := by
        rwa [← Function.iterate_succ_apply]
      exact ih used (stepNum num) hs1 hs2 ⟨k', by omega, hfree'⟩
    · rw [if_neg hmem]
      exact ⟨hmem, h1, h48⟩

/-- If fewer than 48 numbers are used, some iterate of the cyclic
successor is free within 47 steps. -/
lemma exists_free_iterate (used : List ℤ) (num : ℤ)
    (h1 : 1 ≤ num) (h48 : num ≤ 48) (hcard : used.toFinset.card < 48) :
    ∃ k ≤ 48, stepNum^[k] num ∉ used := by
  by_contra hall
  push_neg at hall
  have hsub : Finset.Icc (1 : ℤ) 48 ⊆ used.toFinset := by
    intro m hm
    rw [Finset.mem_Icc] at hm
    obtain ⟨k, hk, hiter⟩ := stepNum_covers num m h1 h48 hm.1 hm.2
    rw [List.mem_toFinset]
    have h := hall k (by omega)
    rwa [hiter] at h
  have hge : (48 : ℕ) ≤ used.toFinset.card := by
    have h := Finset.card_le_card hsub
    rwa [Int.card_Icc, show ((48 : ℤ) + 1 - 1).toNat = 48 by rfl] at h
  omega

lemma repairCollisions_aux (l : List ℤ) :
    ∀ (acc : List ℤ), acc.Nodup → (∀ m ∈ acc, 1 ≤ m ∧ m ≤ 48) →
    acc.length + l.length ≤ 5 → (∀ m ∈ l, 1 ≤ m ∧ m ≤ 48) →
    (l.foldl (fun acc num => acc ++ [probe 48 acc num]) acc).Nodup ∧
    (l.foldl (fun acc num => acc ++ [probe 48 acc num]) acc).length =
      acc.length + l.length ∧
    ∀ m ∈ l.foldl (fun acc num => acc ++ [probe 48 acc num]) acc,
      1 ≤ m ∧ m ≤ 48 := by
  induction l with
  | nil =>
    intro acc hnd hrange _ _
    exact ⟨hnd, by simp, hrange⟩
  | cons num rest ih =>
    intro acc hnd hrange hlen hlrange
    have hnum := hlrange num (List.mem_cons_self num rest)
    have hcard : acc.toFinset.card < 48 := by
      have h1 := acc.toFinset_card_le
      simp only [List.length_cons] at hlen
      omega
    obtain ⟨hp1, hp2, hp3⟩ := probe_spec 48 acc num hnum.1 hnum.2
      (exists_free_iterate acc num hnum.1 hnum.2 hcard)
    simp only [List.foldl_cons]
    have hnd' : (acc ++ [probe 48 acc num]).Nodup := by
      simp [List.nodup_append, hnd, hp1]
    have hrange' : ∀ m ∈ acc ++ [probe 48 acc num], 1 ≤ m ∧ m ≤ 48 := by
      intro m hm
      rcases List.mem_append.mp hm with h | h
      · exact hrange m h
      · rw [List.mem_singleton.mp h]
        exact ⟨hp2, hp3⟩
    have hlen' : (acc ++ [probe 48 acc num]).length + rest.length ≤ 5 := by
      simp only [List.length_append, List.length_cons, List.length_nil]
        at hlen ⊢
      omega
    have hlrange' : ∀ m ∈ rest, 1 ≤ m ∧ m ≤ 48 :=
      fun m hm => hlrange m (List.mem_cons_of_mem num hm)
    obtain ⟨r1, r2, r3⟩ := ih (acc ++ [probe 48 acc num]) hnd' hrange'
      hlen' hlrange'
    refine ⟨r1, ?_, r3⟩
    rw [r2]
    simp only [List.length_append, List.length_cons, List.length_nil]
    omega

lemma repairCollisions_spec (l : List ℤ) (hlen : l.length ≤ 5)
    (hrange : ∀ m ∈ l, 1 ≤ m ∧ m ≤ 48) :
    (repairCollisions l).Nodup ∧ (repairCollisions l).length = l.length ∧
    ∀ m ∈ repairCollisions l, 1 ≤ m ∧ m ≤ 48 := by
  obtain ⟨r1, r2, r3⟩ := repairCollisions_aux l [] List.nodup_nil
    (by simp) (by simpa using hlen) hrange
  exact ⟨r1, by simpa using r2, r3⟩

lemma ratTrunc_nonneg (q : ℚ) (h : 0 ≤ q) : 0 ≤ ratTrunc q := by
  rw [ratTrunc, if_pos h]
  exact Int.floor_nonneg.mpr h

lemma realTrunc_nonneg (x : ℝ) (h : 0 ≤ x) : 0 ≤ realTrunc x := by
  rw [realTrunc, if_pos h]
  exact Int.floor_nonneg.mpr h

lemma pick_range (x : ℤ) (hx : 0 ≤ x) :
    1 ≤ goIntMod x 48 + 1 ∧ goIntMod x 48 + 1 ≤ 48 := by
  rw [goIntMod_eq_emod x hx]
  omega

/-- The mock solar generator's F10.7 index is `70 + sin·30 ≥ 40 ≥ 0`. -/
lemma mockSolar_f107_nonneg (t : ℚ) : 0 ≤ (mockSolar t).f107Index := by
  simp only [mockSolar]
  nlinarith [Real.neg_one_le_sin ((t : ℝ) / 432000)]

/-- The mock weather generator's temperature is
`15 + 10·sin + 5·sin ≥ 0`. -/
lemma mockWeather_temp_nonneg (t : ℚ) : 0 ≤ (mockWeather t).temperature := by
  simp only [mockWeather]
  nlinarith [Real.neg_one_le_sin (2 * Real.pi * (yearDay t : ℝ) / 365),
    Real.neg_one_le_sin ((t : ℝ) / 86400)]

lemma predict_parts (a b c d e : ℤ)
    (ha : 1 ≤ a ∧ a ≤ 48) (hb : 1 ≤ b ∧ b ≤ 48) (hc : 1 ≤ c ∧ c ≤ 48)
    (hd : 1 ≤ d ∧ d ≤ 48) (he : 1 ≤ e ∧ e ≤ 48) :
    (repairCollisions [a, b, c, d, e]).length = 5 ∧
    (repairCollisions [a, b, c, d, e]).Nodup ∧
    ∀ m ∈ repairCollisions [a, b, c, d, e], 1 ≤ m ∧ m ≤ 48 := by
  obtain ⟨r1, r2, r3⟩ := repairCollisions_spec [a, b, c, d, e] (by simp)
    (by
      intro m hm
      simp only [List.mem_cons, List.not_mem_nil, or_false] at hm
      rcases hm with rfl | rfl | rfl | rfl | rfl <;> assumption)
  exact ⟨by simpa using r2, r1, r3⟩

lemma predict_spec (cosmic : CosmicData) (wd : ℤ) (hwd : 0 ≤ wd)
    (hmoon : 0 ≤ cosmic.moonPhase)
    (hsolar : ∀ s, cosmic.solarActivity = some s → 0 ≤ s.f107Index)
    (hweather : ∀ w, cosmic.weatherData = some w → 0 ≤ w.temperature) :
    (PredictBasedOnCosmicConditions cosmic wd).length = 5 ∧
    (PredictBasedOnCosmicConditions cosmic wd).Nodup ∧
    ∀ m ∈ PredictBasedOnCosmicConditions cosmic wd, 1 ≤ m ∧ m ≤ 48 := by
  have h0 := pick_range (ratTrunc (cosmic.moonPhase * 48))
    (ratTrunc_nonneg _ (mul_nonneg hmoon (by norm_num)))
  have h1 := pick_range (wd * 7) (by omega)
  have h2 := pick_range ((cosmic.zodiacSign.length : ℤ) * 3) (by positivity)
  rcases hsa : cosmic.solarActivity with _ | s <;>
    rcases hwa : cosmic.weatherData with _ | w <;>
      simp only [PredictBasedOnCosmicConditions, hsa, hwa]
  · exact predict_parts _ _ _ _ _ h0 h1 h2 (by norm_num) (by norm_num)
  · exact predict_parts _ _ _ _ _ h0 h1 h2 (by norm_num)
      (pick_range _ (realTrunc_nonneg _ (hweather w hwa)))
  · exact predict_parts _ _ _ _ _ h0 h1 h2
      (pick_range _ (realTrunc_nonneg _ (hsolar s hsa))) (by norm_num)
  · exact predict_parts _ _ _ _ _ h0 h1 h2
      (pick_range _ (realTrunc_nonneg _ (hsolar s hsa)))
      (pick_range _ (realTrunc_nonneg _ (hweather w hwa)))

/-- C8: for every analyzer state (including the freshly initialised
zero-drawing one, where all scores are `0` or `NaN`), every strategy
name (known or unknown), every map iteration order over the 48 keys and
every reordering the non-total NaN comparator may produce,
`generateSetByStrategy` returns exactly 5 pairwise-distinct numbers in
`[1, 48]`; and `PredictBasedOnCosmicConditions` — under the
program-maintained invariants that the moon phase, weekday index, F10.7
index and temperature are nonnegative, the latter two established for
the mock generators by the last conjunct — always terminates its
linear-probing collision repair with exactly 5 pairwise-distinct
numbers in `[1, 48]`. -/
theorem generateSet_and_cosmic_prediction_valid
    (st : AnalyzerState) (n : ℕ) (strategy : String) (order : List ℤ)
    (ranked : List ScoredNumber) (cosmic : CosmicData) (wd : ℤ)
    (horder : order.Perm mainKeys)
    (hranked : ranked.Perm (scoreNumbersByStrategy st n strategy order))
    (hwd : 0 ≤ wd) (hmoon : 0 ≤ cosmic.moonPhase)
    (hsolar : ∀ s, cosmic.solarActivity = some s → 0 ≤ s.f107Index)
    (hweather : ∀ w, cosmic.weatherData = some w → 0 ≤ w.temperature) :
    ((generateSetNumbers ranked).length = 5 ∧
      (generateSetNumbers ranked).Nodup ∧
      ∀ m ∈ generateSetNumbers ranked, 1 ≤ m ∧ m ≤ 48) ∧
    ((PredictBasedOnCosmicConditions cosmic wd).length = 5 ∧
      (PredictBasedOnCosmicConditions cosmic wd).Nodup ∧
      ∀ m ∈ PredictBasedOnCosmicConditions cosmic wd, 1 ≤ m ∧ m ≤ 48) ∧
    ∀ t : ℚ, 0 ≤ (mockSolar t).f107Index ∧
      0 ≤ (mockWeather t).temperature := by
  refine ⟨?_, predict_spec cosmic wd hwd hmoon hsolar hweather,
    fun t => ⟨mockSolar_f107_nonneg t, mockWeather_temp_nonneg t⟩⟩
  have hmapperm : (ranked.map (fun sn => sn.number)).Perm mainKeys := by
    refine (hranked.map (fun sn => sn.number)).trans ?_
    rw [scoreNumbers_map_number]
    exact horder
  obtain ⟨s1, s2, s3⟩ := selectTop5_spec ranked hmapperm
  have hp : (generateSetNumbers ranked).Perm (selectTop5 ranked) := by
    rw [generateSetNumbers, sortInts]
    exact List.mergeSort_perm _ _
  refine ⟨by rw [hp.length_eq, s2], hp.nodup_iff.mpr s1, ?_⟩
  intro m hm
  exact s3 m (hp.mem_iff.mp hm)

/-- Witness for C8: the degenerate zero-drawing analyzer with the
`balanced` strategy in key order (every score `NaN` from `0/0`), and an
empty cosmic record with no solar or weather data. -/
theorem generateSet_and_cosmic_prediction_valid_witness :
    (generateSetNumbers
      (scoreNumbersByStrategy initState 0 "balanced" mainKeys)).length = 5 ∧
    (PredictBasedOnCosmicConditions (emptyCosmic 0) 0).length = 5 := by
  have h := generateSet_and_cosmic_prediction_valid initState 0 "balanced"
    mainKeys (scoreNumbersByStrategy initState 0 "balanced" mainKeys)
    (emptyCosmic 0) 0 (List.Perm.refl _) (List.Perm.refl _)
    (by norm_num) (by norm_num [emptyCosmic])
    (fun s hs => by simp [emptyCosmic] at hs)
    (fun w hw => by simp [emptyCosmic] at hw)
  exact ⟨h.1.1, h.2.1.1⟩

end GoLucky

